import Mathlib

/-!
A shallow embedding of `main.go` of qmp-list-network-devices.

The program asks a QEMU monitor for the guest's network devices (`getNetDevices`),
resolves each MAC address against the host ARP table (`getIPAddress`) and prints
one CSV record per device (`main`).

Go strings are embedded as Lean strings (well-formed Unicode text), Go's
`(value, error)` results as pairs whose second component is `none` for `nil`,
and a Go run-time panic as an explicit outcome.
-/

set_option autoImplicit false

namespace QmpListNetworkDevices

/-! ## Errors -/

/-- The errors a `*strconv.NumError` can carry. -/
inductive NumErrKind where
  /-- Sentinel `strconv.ErrSyntax`. -/
  | errSyntax
  /-- Sentinel `strconv.ErrRange`. -/
  | errRange
  /-- The error `invalid base <base>`. -/
  | errBase (base : Nat)
  /-- The error `invalid bit size <bitSize>`. -/
  | errBitSize (bitSize : Nat)
  deriving DecidableEq, Repr

/-- Text of the errors of package `strconv`. -/
def NumErrKind.Error : NumErrKind → String
  | .errSyntax => "invalid syntax"
  | .errRange => "value out of range"
  | .errBase base => "invalid base " ++ toString base
  | .errBitSize bitSize => "invalid bit size " ++ toString bitSize

/-- The record `strconv.NumError`: failing function, input text and sentinel. -/
structure NumError where
  Func : String
  Num : String
  Err : NumErrKind
  deriving DecidableEq, Repr

/-- Go error values as this program builds or receives them.
`ext` is an error made outside the program (operating system, monitor transport,
JSON decoding), known only by its text; `num` is a `*strconv.NumError`;
`errorf` is `fmt.Errorf` without a `%w` verb; `wrapf pre err` is `fmt.Errorf`
whose format ends in `: %w`, `pre` being the formatted text before the operand. -/
inductive GoError where
  | ext (msg : String)
  | num (e : NumError)
  | errorf (msg : String)
  | wrapf (pre : String) (err : GoError)
  deriving DecidableEq, Repr

/-- The method `Error()` of an error value. `quote` stands for `strconv.Quote`,
which `NumError.Error` applies to the rejected text. -/
def GoError.Error (quote : String → String) : GoError → String
  | .ext msg => msg
  | .num e => "strconv." ++ e.Func ++ ": " ++ "parsing " ++ quote e.Num ++ ": " ++ e.Err.Error
  | .errorf msg => msg
  | .wrapf pre err => pre ++ err.Error quote

/-- The method `Unwrap()`: the operand of `%w`, if any. -/
def GoError.Unwrap : GoError → Option GoError
  | .wrapf _ err => some err
  | _ => none

/-! ## Library functions used by `getIPAddress` -/

/-- Go's `unicode.IsSpace`: the Latin-1 spaces and the code points of category Z
or property Pattern_White_Space. -/
def isSpace (c : Char) : Bool :=
  let n := c.toNat
  n == 9 || n == 10 || n == 11 || n == 12 || n == 13 || n == 32 ||
  n == 0x85 || n == 0xA0 || n == 0x1680 || (0x2000 ≤ n && n ≤ 0x200a) ||
  n == 0x2028 || n == 0x2029 || n == 0x202f || n == 0x205f || n == 0x3000

/-- Scanning loop of `strings.Fields`: `cur` is the field being read, reversed. -/
def fieldsAux : List Char → List Char → List String
  | [], cur => if cur.isEmpty then [] else [String.mk cur.reverse]
  | c :: cs, cur =>
    if isSpace c then
      if cur.isEmpty then fieldsAux cs [] else String.mk cur.reverse :: fieldsAux cs []
    else fieldsAux cs (c :: cur)

/-- Go's `strings.Fields`: the maximal runs of non-space characters of `s`. -/
def Fields (s : String) : List String :=
  fieldsAux s.data []

/-- Go's `strings.HasPrefix`. -/
def HasPrefix (s pre : String) : Bool :=
  pre.data.isPrefixOf s.data

/-- The helper `lower` of `strconv`: `c | 0x20` on a byte. -/
def lower (c : Nat) : Nat :=
  c ||| 0x20

/-- Outcome of the digit loop of `strconv.ParseUint`. -/
inductive UintResult where
  | ok (n : Nat) (underscores : Bool)
  | err (k : NumErrKind)
  deriving DecidableEq, Repr

/-- The digit loop of `strconv.ParseUint` over the bytes left after the base
prefix; `n` is the `uint64` accumulator. A character above U+007F is encoded
by bytes above 0x7F, none of which is a digit, so it ends the loop like its
first byte does. -/
def parseDigits (base : Nat) (base0 : Bool) (cutoff maxVal : Nat) :
    List Char → Nat → Bool → UintResult
  | [], n, underscores => .ok n underscores
  | ch :: cs, n, underscores =>
    let c := ch.toNat
    if c == 95 && base0 then parseDigits base base0 cutoff maxVal cs n true
    else
      let d? : Option Nat :=
        if 48 ≤ c && c ≤ 57 then some (c - 48)
        else if 97 ≤ lower c && lower c ≤ 122 && c < 128 then some (lower c - 97 + 10)
        else none
      match d? with
      | none => .err .errSyntax
      | some d =>
        if d ≥ base then .err .errSyntax
        else if n ≥ cutoff then .err .errRange
        else
          let n0 := (n * base) % 2 ^ 64
          let n1 := (n0 + d) % 2 ^ 64
          if n1 < n0 || n1 > maxVal then .err .errRange
          else parseDigits base base0 cutoff maxVal cs n1 underscores

/-- The loop of `strconv.underscoreOK` from index `i` on; `saw` is the class of
the last character: 0 for `^`, 1 for a digit or base prefix, 2 for `_`, 3 for
anything else. -/
def underscoreLoop (hex : Bool) : List Char → Nat → Bool
  | [], saw => saw != 2
  | ch :: cs, saw =>
    let c := ch.toNat
    if (48 ≤ c && c ≤ 57) || (hex && 97 ≤ lower c && lower c ≤ 102 && c < 128) then
      underscoreLoop hex cs 1
    else if c == 95 then
      if saw != 1 then false else underscoreLoop hex cs 2
    else if saw == 2 then false
    else underscoreLoop hex cs 3

/-- Go's `strconv.underscoreOK`: underscores only between digits or after the
base prefix. -/
def underscoreOK (s : List Char) : Bool :=
  let s := match s with
    | c :: cs => if c.toNat == 45 || c.toNat == 43 then cs else s
    | [] => s
  match s with
  | z :: p :: rest =>
    if z.toNat == 48 && p.toNat < 128 &&
        (lower p.toNat == 98 || lower p.toNat == 111 || lower p.toNat == 120) then
      underscoreLoop (lower p.toNat == 120) rest 1
    else underscoreLoop false s 0
  | _ => underscoreLoop false s 0

/-- Go's `strconv.ParseUint(s, base, bitSize)` on the characters of `s`, for a
`bitSize` other than 0: the value, or the error the `NumError` carries. -/
def ParseUint (s : List Char) (base bitSize : Nat) : Except NumErrKind Nat :=
  match s with
  | [] => .error .errSyntax
  | c0 :: _ =>
    let base0 := base == 0
    -- base 0: "0b", "0o", "0x" need a third byte, another leading "0" is octal
    let prefixed : Option (Nat × List Char) :=
      if 2 ≤ base && base ≤ 36 then some (base, s)
      else if base == 0 then
        if c0.toNat == 48 then
          match s with
          | _ :: p :: d :: rest =>
            if p.toNat < 128 && lower p.toNat == 98 then some (2, d :: rest)
            else if p.toNat < 128 && lower p.toNat == 111 then some (8, d :: rest)
            else if p.toNat < 128 && lower p.toNat == 120 then some (16, d :: rest)
            else some (8, p :: d :: rest)
          | _ :: rest => some (8, rest)
          | [] => some (8, [])
        else some (10, s)
      else none
    match prefixed with
    | none => .error (.errBase base)
    | some (base, digits) =>
      if bitSize > 64 then .error (.errBitSize bitSize)
      else
        let cutoff := (2 ^ 64 - 1) / base + 1
        let maxVal := 2 ^ bitSize - 1
        match parseDigits base base0 cutoff maxVal digits 0 false with
        | .err k => .error k
        | .ok n underscores =>
          if underscores && !underscoreOK s then .error .errSyntax else .ok n

/-- Go's `strconv.ParseInt(s, base, bitSize)` for a `bitSize` other than 0. -/
def ParseInt (s : String) (base bitSize : Nat) : Except NumError Int :=
  match s.data with
  | [] => .error ⟨"ParseInt", s, .errSyntax⟩
  | c0 :: cs =>
    let neg := c0.toNat == 45
    let body := if c0.toNat == 43 || c0.toNat == 45 then cs else c0 :: cs
    -- on a range error ParseUint hands back its largest value and ParseInt goes on
    let un? : Except NumErrKind Nat :=
      match ParseUint body base bitSize with
      | .ok n => .ok n
      | .error .errRange => .ok (2 ^ bitSize - 1)
      | .error k => .error k
    match un? with
    | .error k => .error ⟨"ParseInt", s, k⟩
    | .ok un =>
      let cutoff := 2 ^ (bitSize - 1)
      if !neg && un ≥ cutoff then .error ⟨"ParseInt", s, .errRange⟩
      else if neg && un > cutoff then .error ⟨"ParseInt", s, .errRange⟩
      else .ok (if neg then -(un : Int) else (un : Int))

/-- Go's `a & b` on `int` operands: bitwise AND of the 64-bit two's-complement
representations, read back as a signed number (with a 32-bit `int` the result
is the same on the values `ParseInt` yields for `bitSize` 32). -/
def andInt (a b : Int) : Int :=
  let r := Nat.land (a % 2 ^ 64).toNat (b % 2 ^ 64).toNat
  if r ≥ 2 ^ 63 then (r : Int) - 2 ^ 64 else (r : Int)

/-! ## `getIPAddress` -/

/-- What a call leaves behind: the returned pair `(value, err)`, with `none` for
a `nil` error, or the run-time panic `index out of range [index] with length
length` of a slice access. -/
inductive Outcome (α : Type) where
  | ret (value : α) (err : Option GoError)
  | panic (index length : Nat)
  deriving DecidableEq, Repr

/-- Column of the IP address in `/proc/net/arp`. -/
def IPAddressIndex : Nat := 0
/-- Column of the hardware type. -/
def HWTypeIndex : Nat := 1
/-- Column of the flags. -/
def FlagsIndex : Nat := 2
/-- Column of the hardware address. -/
def HWAddressIndex : Nat := 3
/-- Column of the mask. -/
def MaskIndex : Nat := 4
/-- Column of the device. -/
def DeviceIndex : Nat := 5

/-- The flag `ATF_COM` (complete). -/
def AtfCom : Int := 0x02

/-- One pass through the body of the scanning loop of `getIPAddress` on the
fields of a line, from the hardware-address test on: `none` when the loop goes
on to the next line, `some o` when the function ends with `o`. -/
def matchEntry (macAddress : String) (fields : List String) : Option (Outcome String) :=
  match fields[HWAddressIndex]? with
  | none => some (.panic HWAddressIndex fields.length)
  | some hw =>
    if hw ≠ macAddress then none
    else
      match fields[FlagsIndex]? with
      | none => some (.panic FlagsIndex fields.length)
      | some fl =>
        match ParseInt fl 0 32 with
        | .error e =>
          some (.ret "" (some (.wrapf ("failed to parse /proc/net/arp flags field " ++ fl ++ ": ")
            (.num e))))
        | .ok flags =>
          if andInt flags AtfCom = AtfCom then
            match fields[IPAddressIndex]? with
            | none => some (.panic IPAddressIndex fields.length)
            | some ip => some (.ret ip none)
          else none

/-- The whole body of the scanning loop of `getIPAddress` on one line: the
device test (`fields[DeviceIndex]` is read only when `device` is not empty),
then `matchEntry`. -/
def loopBody (device macAddress : String) (line : String) : Option (Outcome String) :=
  let fields := Fields line
  if device ≠ "" then
    match fields[DeviceIndex]? with
    | none => some (.panic DeviceIndex fields.length)
    | some dev => if dev ≠ device then none else matchEntry macAddress fields
  else matchEntry macAddress fields

/-- The loop `for s.Scan()` of `getIPAddress` over the lines still to be read,
and the final `could not find` error. -/
def scanLoop (device macAddress : String) : List String → Outcome String
  | [] => .ret "" (some (.errorf ("could not find " ++ macAddress)))
  | line :: rest =>
    match loopBody device macAddress line with
    | some o => o
    | none => scanLoop device macAddress rest

/-- The function `getIPAddress`. `arp` is what `os.Open("/proc/net/arp")` and
the `bufio.Scanner` deliver: the text of the open error, or the lines of the
file in order. The first `s.Scan()` drops the first line. -/
def getIPAddress (arp : Except String (List String)) (device macAddress : String) :
    Outcome String :=
  match arp with
  | .error msg => .ret "" (some (.wrapf "failed to open /proc/net/arp: " (.ext msg)))
  | .ok lines => scanLoop device macAddress (lines.drop 1)

/-! ## `getNetDevices` -/

/-- One entry of a `qom-list` reply. -/
structure qomListReturn where
  Name : String
  /-- Field `Type` of the source (a reserved word here). -/
  Type_ : String
  deriving DecidableEq, Repr

/-- A discovered network device. -/
structure netDevice where
  Path : String
  Name : String
  /-- Field `Type` of the source (a reserved word here). -/
  Type_ : String
  MacAddress : String
  deriving DecidableEq, Repr

/-- The requests the program sends to the monitor. -/
inductive Request where
  /-- Request `qom-list` with its `path` argument. -/
  | list (path : String)
  /-- Request `qom-get` with its `path` and `property` arguments. -/
  | get (path property : String)
  deriving DecidableEq, Repr

/-- The monitor as `qmpQomList` and `qmpQomGet` see it: for each request either
the decoded `return` member of the reply, or the error of `qmpMonitor.Run` or of
`json.Unmarshal`. The reply depends on the request only: the object model does
not change during a call of `getNetDevices`. -/
structure Monitor where
  qmpQomList : String → Except GoError (List qomListReturn)
  qmpQomGet : String → String → Except GoError String

/-- The loop that looks for an entry named `netdev` in a listing. -/
def isNetdev : List qomListReturn → Bool
  | [] => false
  | d :: ds => if d.Name = "netdev" then true else isNetdev ds

/-- The `switch d.Name` that stores a fetched value in the device record. -/
def setProp (device : netDevice) (name value : String) : netDevice :=
  if name = "type" then { device with Type_ := value }
  else if name = "netdev" then { device with Name := value }
  else if name = "mac" then { device with MacAddress := value }
  else device

/-- The loop that fetches the properties `type`, `netdev` and `mac` of a
device, over the entries of its listing still to be visited. Returns the
requests issued and the completed device or the error. -/
def fetchProps (m : Monitor) (path : String) :
    List qomListReturn → netDevice → List Request × Except GoError netDevice
  | [], device => ([], .ok device)
  | d :: ds, device =>
    if d.Name ≠ "type" ∧ d.Name ≠ "netdev" ∧ d.Name ≠ "mac" then fetchProps m path ds device
    else
      match m.qmpQomGet path d.Name with
      | .error err =>
        ([.get path d.Name],
          .error (.wrapf ("failed to get qmp qom property " ++ path ++ " " ++ d.Name ++ ": ") err))
      | .ok value =>
        let r := fetchProps m path ds (setProp device d.Name value)
        (.get path d.Name :: r.1, r.2)

/-- The loop over the entries of the listing of `parentPath` still to be
visited; `devices` are the devices appended so far. Returns the requests issued
and the devices or the error. -/
def scanChildren (m : Monitor) (parentPath : String) :
    List qomListReturn → List netDevice → List Request × Except GoError (List netDevice)
  | [], devices => ([], .ok devices)
  | p :: ps, devices =>
    if HasPrefix p.Type_ "child<" then
      let path := parentPath ++ "/" ++ p.Name
      match m.qmpQomList path with
      | .error err =>
        ([.list path], .error (.wrapf ("failed to get qmp qom list " ++ path ++ ": ") err))
      | .ok r =>
        if isNetdev r then
          let f := fetchProps m path r { Path := path, Name := "", Type_ := "", MacAddress := "" }
          match f.2 with
          | .error e => (.list path :: f.1, .error e)
          | .ok device =>
            let s := scanChildren m parentPath ps (devices ++ [device])
            (.list path :: (f.1 ++ s.1), s.2)
        else
          let s := scanChildren m parentPath ps devices
          (.list path :: s.1, s.2)
    else scanChildren m parentPath ps devices

/-- The loop over the root paths still to be visited. -/
def scanRoots (m : Monitor) :
    List String → List netDevice → List Request × Except GoError (List netDevice)
  | [], devices => ([], .ok devices)
  | parentPath :: roots, devices =>
    match m.qmpQomList parentPath with
    | .error err =>
      ([.list parentPath],
        .error (.wrapf ("failed to get qmp qom list " ++ parentPath ++ ": ") err))
    | .ok listResponse =>
      let c := scanChildren m parentPath listResponse devices
      match c.2 with
      | .error e => (.list parentPath :: c.1, .error e)
      | .ok devices =>
        let s := scanRoots m roots devices
        (.list parentPath :: (c.1 ++ s.1), s.2)

/-- The two root paths `getNetDevices` walks, in order. -/
def rootPaths : List String := ["/machine/peripheral", "/machine/peripheral-anon"]

/-- The requests `getNetDevices` sends to the monitor, in order. -/
def getNetDevicesRequests (m : Monitor) : List Request :=
  (scanRoots m rootPaths []).1

/-- The function `getNetDevices`: the returned pair `(devices, err)`; on an
error the slice is `nil`, here the empty list. -/
def getNetDevices (m : Monitor) : List netDevice × Option GoError :=
  match (scanRoots m rootPaths []).2 with
  | .error e => ([], some e)
  | .ok devices => (devices, none)

/-! ## Vocabulary of the statements -/

/-- The path `fmt.Sprintf("%s/%s", parentPath, p.Name)` of an entry. -/
def childPath (parentPath : String) (p : qomListReturn) : String :=
  parentPath ++ "/" ++ p.Name

/-- The names of the entries of a listing. -/
def names (r : List qomListReturn) : List String :=
  r.map (fun d => d.Name)

/-- Entry `p` of the listing of `parentPath` is a peripheral subtree that
exposes `netdev`: its type begins with `child<` and the listing of its own path
is served and contains an entry named `netdev`. -/
def exposesNetdev (m : Monitor) (parentPath : String) (p : qomListReturn) : Bool :=
  HasPrefix p.Type_ "child<" &&
    match m.qmpQomList (childPath parentPath p) with
    | .ok r => decide ("netdev" ∈ names r)
    | .error _ => false

/-- Device `d` is the record built for entry `p` of the listing of
`parentPath`: its path is the path of the entry, and it is the result of the
property loop over the listing served for that path. -/
def Discovered (m : Monitor) (parentPath : String) (p : qomListReturn) (d : netDevice) : Prop :=
  d.Path = childPath parentPath p ∧
    ∃ r, m.qmpQomList d.Path = .ok r ∧ "netdev" ∈ names r ∧
      (fetchProps m d.Path r { Path := d.Path, Name := "", Type_ := "", MacAddress := "" }).2 =
        .ok d

/-- The error `getNetDevices` returns when request `q` fails on monitor `m`,
`none` when the monitor answers it. -/
def failure (m : Monitor) : Request → Option GoError
  | .list path =>
    match m.qmpQomList path with
    | .error err => some (.wrapf ("failed to get qmp qom list " ++ path ++ ": ") err)
    | .ok _ => none
  | .get path property =>
    match m.qmpQomGet path property with
    | .error err =>
      some (.wrapf ("failed to get qmp qom property " ++ path ++ " " ++ property ++ ": ") err)
    | .ok _ => none

/-- A line qualifies for a device filter and a MAC address: its device field
passes the filter, its hardware-address field is the MAC, and its flags field
parses to a number with the bit `AtfCom` set. -/
def Qualifies (device macAddress line : String) : Prop :=
  (device = "" ∨ (Fields line)[DeviceIndex]? = some device) ∧
  (Fields line)[HWAddressIndex]? = some macAddress ∧
  ∃ fl n, (Fields line)[FlagsIndex]? = some fl ∧ ParseInt fl 0 32 = .ok n ∧
    andInt n AtfCom = AtfCom

/-! ## Sample monitors -/

/-- A guest with the network device `net0` and the disk `disk0` under
`/machine/peripheral` and an unnamed network device under
`/machine/peripheral-anon`; every request is answered. -/
def sampleMonitor : Monitor where
  qmpQomList := fun path =>
    if path = "/machine/peripheral" then
      .ok [⟨"type", "string"⟩, ⟨"net0", "child<virtio-net-pci>"⟩,
        ⟨"disk0", "child<virtio-blk-pci>"⟩]
    else if path = "/machine/peripheral/net0" then
      .ok [⟨"type", "string"⟩, ⟨"netdev", "str"⟩, ⟨"rx_queue_size", "uint16"⟩, ⟨"mac", "str"⟩]
    else if path = "/machine/peripheral/disk0" then
      .ok [⟨"type", "string"⟩, ⟨"drive", "str"⟩]
    else if path = "/machine/peripheral-anon" then
      .ok [⟨"type", "string"⟩, ⟨"device[0]", "child<e1000>"⟩]
    else if path = "/machine/peripheral-anon/device[0]" then
      .ok [⟨"mac", "str"⟩, ⟨"type", "string"⟩, ⟨"netdev", "str"⟩]
    else .ok []
  qmpQomGet := fun path property =>
    if path = "/machine/peripheral/net0" then
      if property = "type" then .ok "virtio-net-pci"
      else if property = "netdev" then .ok "net0"
      else if property = "mac" then .ok "52:54:00:12:34:56"
      else .ok ""
    else if path = "/machine/peripheral-anon/device[0]" then
      if property = "type" then .ok "e1000"
      else if property = "netdev" then .ok "hostnet1"
      else if property = "mac" then .ok "52:54:00:ab:cd:ef"
      else .ok ""
    else .ok ""

/-- A guest whose only peripheral is a disk; every request is answered. -/
def diskMonitor : Monitor where
  qmpQomList := fun path =>
    if path = "/machine/peripheral" then
      .ok [⟨"type", "string"⟩, ⟨"disk0", "child<virtio-blk-pci>"⟩]
    else if path = "/machine/peripheral/disk0" then
      .ok [⟨"type", "string"⟩, ⟨"drive", "str"⟩]
    else .ok [⟨"type", "string"⟩]
  qmpQomGet := fun _ _ => .ok ""

/-- The guest of `sampleMonitor` on a transport that breaks when
`/machine/peripheral-anon` is listed, after `net0` has been read. -/
def brokenMonitor : Monitor where
  qmpQomList := fun path =>
    if path = "/machine/peripheral-anon" then .error (.ext "EOF")
    else sampleMonitor.qmpQomList path
  qmpQomGet := sampleMonitor.qmpQomGet

/-- The guest of `sampleMonitor` on a transport that breaks when the property
`mac` of the unnamed device is fetched, after `net0` has been read. -/
def brokenGetMonitor : Monitor where
  qmpQomList := sampleMonitor.qmpQomList
  qmpQomGet := fun path property =>
    if path = "/machine/peripheral-anon/device[0]" ∧ property = "mac" then
      .error (.ext "i/o timeout")
    else sampleMonitor.qmpQomGet path property

/-- The type of entry `p` begins with `child<`. -/
def isChild (p : qomListReturn) : Bool :=
  HasPrefix p.Type_ "child<"

/-- Entry `d` of a listing is named `type`, `netdev` or `mac`. -/
def wanted (d : qomListReturn) : Bool :=
  decide (d.Name = "type" ∨ d.Name = "netdev" ∨ d.Name = "mac")

/-- A request is a `qom-list`. -/
def Request.isList : Request → Bool
  | .list _ => true
  | .get _ _ => false

/-- One `qom-get` at `path` for each entry of the listing `r` named `type`,
`netdev` or `mac`, in the order of `r`. -/
def propertyGets (path : String) (r : List qomListReturn) : List Request :=
  (r.filter wanted).map (fun d => Request.get path d.Name)

/-- The gets `propertyGets` derives from the listing the monitor serves for
entry `p` of the listing of `parentPath`. -/
def subtreeGets (m : Monitor) (parentPath : String) (p : qomListReturn) : List Request :=
  match m.qmpQomList (childPath parentPath p) with
  | .ok r => propertyGets (childPath parentPath p) r
  | .error _ => []

/-- The requests a run without error spends on entry `p` of the listing of
`parentPath`: none when its type does not begin with `child<`, else the listing
of its path, followed by `subtreeGets` when that listing names `netdev`. -/
def visit (m : Monitor) (parentPath : String) (p : qomListReturn) : List Request :=
  if isChild p then
    Request.list (childPath parentPath p) ::
      (if exposesNetdev m parentPath p then subtreeGets m parentPath p else [])
  else []

/-- A guest whose device `nic0` has a `netdev` property and a `type` but no
`mac`: its listing names only the first two, and a get of anything else fails. -/
def noMacMonitor : Monitor where
  qmpQomList := fun path =>
    if path = "/machine/peripheral" then .ok [⟨"nic0", "child<usb-net>"⟩]
    else if path = "/machine/peripheral/nic0" then
      .ok [⟨"type", "string"⟩, ⟨"netdev", "str"⟩]
    else .ok []
  qmpQomGet := fun path property =>
    if path = "/machine/peripheral/nic0" ∧ property = "type" then .ok "usb-net"
    else if path = "/machine/peripheral/nic0" ∧ property = "netdev" then .ok "hostnet0"
    else .error (.ext ("Property " ++ property ++ " not found"))

/-! ## `main` -/

/-- The line terminator the CSV writer emits (`UseCRLF` is false). -/
def newline : String := String.singleton (Char.ofNat 10)

/-- The method `fieldNeedsQuotes` of `csv.Writer` with the comma as delimiter:
a field is quoted when it is backslash-dot, holds a line feed, a carriage
return, a double quote or a comma, or begins with a space character. -/
def fieldNeedsQuotes (field : String) : Bool :=
  if field = "" then false
  else if field.data = [Char.ofNat 92, Char.ofNat 46] then true
  else if field.data.any
      (fun c => c.toNat == 10 || c.toNat == 13 || c.toNat == 34 || c.toNat == 44) then true
  else
    match field.data with
    | c :: _ => isSpace c
    | [] => false

/-- The copy loop of `csv.Writer.Write` on a quoted field: every character is
written as it is, a double quote twice. -/
def escapeQuotes : List Char → List Char
  | [] => []
  | c :: cs => if c.toNat == 34 then c :: c :: escapeQuotes cs else c :: escapeQuotes cs

/-- What `csv.Writer.Write` emits for one field. -/
def writeField (field : String) : String :=
  if fieldNeedsQuotes field then
    String.mk (Char.ofNat 34 :: (escapeQuotes field.data ++ [Char.ofNat 34]))
  else field

/-- The loop of `csv.Writer.Write` over the fields; `n` is the index of the
first of them, a comma precedes every field but the one of index 0. -/
def writeFields : List String → Nat → String
  | [], _ => ""
  | field :: rest, n => (if n > 0 then "," else "") ++ writeField field ++ writeFields rest (n + 1)

/-- The method `csv.Writer.Write`: the text of one record. -/
def Write (record : List String) : String :=
  writeFields record 0 ++ newline

/-- How the process ends: normally, with the text flushed to the standard
output; by `log.Fatalf`, with the text before the error operand and the error;
or by the run-time panic of a slice access (what had reached the standard
output by then is not described). -/
inductive Exit where
  | done (stdout : String)
  | fatal (pre : String) (err : GoError)
  | panic (index length : Nat)
  deriving DecidableEq, Repr

/-- The loop of `main` over the devices still to be reported; `out` is the text
written so far. Each pass calls `getIPAddress` with the empty filter, ignores
its error and writes one record. -/
def reportLoop (arp : Except String (List String)) : List netDevice → String → Exit
  | [], out => .done out
  | d :: ds, out =>
    match getIPAddress arp "" d.MacAddress with
    | .panic index length => .panic index length
    | .ret ipAddress _ =>
      reportLoop arp ds (out ++ Write [d.Name, d.Type_, d.MacAddress, ipAddress, d.Path])

/-- The function `main` from the call of `getNetDevices` on, that is once the
monitor at `qmpPath` is connected. `arp` is the content of `/proc/net/arp`,
taken to be the same at every call of `getIPAddress`. -/
def main (qmpPath : String) (m : Monitor) (arp : Except String (List String)) : Exit :=
  match getNetDevices m with
  | (_, some err) =>
    .fatal ("ERROR Cannot retrieve mac addresses from QMP monitor at " ++ qmpPath ++ ": ") err
  | (devices, none) =>
    reportLoop arp devices (Write ["Name", "Type", "MacAddress", "IpAddress", "Path"])

/-- The text of the IP-address column for a MAC address: the string
`getIPAddress` returns under the empty filter. -/
def ipColumn (arp : Except String (List String)) (macAddress : String) : String :=
  match getIPAddress arp "" macAddress with
  | .ret ipAddress _ => ipAddress
  | .panic _ _ => ""

/-- The texts of a list in order, one after the other. -/
def concatAll : List String → String
  | [] => ""
  | s :: rest => s ++ concatAll rest

/-- A guest whose only peripheral is the network device `net0`. -/
def net0Monitor : Monitor where
  qmpQomList := fun path =>
    if path = "/machine/peripheral" then
      .ok [⟨"type", "string"⟩, ⟨"net0", "child<virtio-net-pci>"⟩]
    else if path = "/machine/peripheral/net0" then
      .ok [⟨"type", "string"⟩, ⟨"netdev", "str"⟩, ⟨"mac", "str"⟩]
    else .ok [⟨"type", "string"⟩]
  qmpQomGet := sampleMonitor.qmpQomGet

/-! ## Numerals, for the statements about the flags field -/

/-- The value of a hexadecimal digit character: `0`-`9`, `a`-`f`, `A`-`F`. -/
def digitVal (c : Char) : Option Nat :=
  let n := c.toNat
  if 48 ≤ n ∧ n ≤ 57 then some (n - 48)
  else if 97 ≤ n ∧ n ≤ 102 then some (n - 87)
  else if 65 ≤ n ∧ n ≤ 70 then some (n - 55)
  else none

/-- The number a string of digits of base `base` denotes, most significant
digit first, on top of the value `acc` of the digits already read; `none` when
a character is not a digit of that base. -/
def numeralValue (base : Nat) : List Char → Nat → Option Nat
  | [], acc => some acc
  | c :: cs, acc =>
    match digitVal c with
    | some d => if d < base then numeralValue base cs (acc * base + d) else none
    | none => none

/-- The digits `digits` are a decimal numeral of value `n` without a leading
zero (the numeral `0` apart). -/
def IsDecimal (digits : List Char) (n : Nat) : Prop :=
  digits ≠ [] ∧ numeralValue 10 digits 0 = some n ∧
    (digits.head? = some (Char.ofNat 48) → digits = [Char.ofNat 48])

/-- The digits `digits` are a hexadecimal numeral of value `n`. -/
def IsHex (digits : List Char) (n : Nat) : Prop :=
  digits ≠ [] ∧ numeralValue 16 digits 0 = some n

/-- The text of a decimal numeral, after a minus sign when `neg`. -/
def decimalText (neg : Bool) (digits : List Char) : String :=
  String.mk ((if neg then [Char.ofNat 45] else []) ++ digits)

/-- The text of a hexadecimal numeral with its prefix `0x`, or `0X` when
`upper`, after a minus sign when `neg`. -/
def hexText (neg upper : Bool) (digits : List Char) : String :=
  String.mk ((if neg then [Char.ofNat 45] else []) ++
    (Char.ofNat 48 :: (if upper then Char.ofNat 88 else Char.ofNat 120) :: digits))

/-- A guest with the single network device `net0` on a transport that answers
only what the object model holds: a listing of an unknown path and a get of an
unlisted property fail. -/
def strictMonitor : Monitor where
  qmpQomList := fun path =>
    if path = "/machine/peripheral" then .ok [⟨"net0", "child<virtio-net-pci>"⟩]
    else if path = "/machine/peripheral/net0" then
      .ok [⟨"type", "string"⟩, ⟨"netdev", "str"⟩, ⟨"mac", "str"⟩]
    else if path = "/machine/peripheral-anon" then .ok []
    else .error (.ext "DeviceNotFound")
  qmpQomGet := fun path property =>
    if path = "/machine/peripheral/net0" ∧ property = "type" then .ok "virtio-net-pci"
    else if path = "/machine/peripheral/net0" ∧ property = "netdev" then .ok "net0"
    else if path = "/machine/peripheral/net0" ∧ property = "mac" then .ok "52:54:00:12:34:56"
    else .error (.ext ("Property " ++ property ++ " not found"))

/-- A guest whose only peripheral is a disk that happens to be named `netdev`,
on a transport that rejects unknown paths and properties. -/
def diskNamedNetdevMonitor : Monitor where
  qmpQomList := fun path =>
    if path = "/machine/peripheral" then .ok [⟨"netdev", "child<virtio-blk-pci>"⟩]
    else if path = "/machine/peripheral/netdev" then
      .ok [⟨"type", "string"⟩, ⟨"drive", "str"⟩]
    else if path = "/machine/peripheral-anon" then .ok []
    else .error (.ext "DeviceNotFound")
  qmpQomGet := fun _ property => .error (.ext ("Property " ++ property ++ " not found"))

/-! ## Theorems about `getIPAddress` -/

theorem length_six {l : List String} (h : l.length = 6) :
    ∃ a b c d e f, l = [a, b, c, d, e, f] := by
  match l, h with
  | [a, b, c, d, e, f], _ => exact ⟨a, b, c, d, e, f, rfl⟩

theorem loopBody_six {device mac line ip t fl hw mask dev : String}
    (h : Fields line = [ip, t, fl, hw, mask, dev]) :
    loopBody device mac line =
      if device ≠ "" ∧ dev ≠ device then none
      else if hw ≠ mac then none
      else match ParseInt fl 0 32 with
        | .error e =>
          some (.ret "" (some (.wrapf ("failed to parse /proc/net/arp flags field " ++ fl ++ ": ")
            (.num e))))
        | .ok flags => if andInt flags AtfCom = AtfCom then some (.ret ip none) else none := by
  unfold loopBody matchEntry
  simp only [h, DeviceIndex, HWAddressIndex, FlagsIndex, IPAddressIndex]
  by_cases hd : device = "" <;> by_cases hdev : dev = device <;> by_cases hhw : hw = mac <;>
    simp [hd, hdev, hhw]

theorem scanLoop_skip (device mac : String) (pre rest : List String)
    (h : ∀ x ∈ pre, loopBody device mac x = none) :
    scanLoop device mac (pre ++ rest) = scanLoop device mac rest := by
  induction pre with
  | nil => rfl
  | cons x xs ih =>
    have hx := h x (List.mem_cons_self x xs)
    simp only [List.cons_append, scanLoop, hx]
    exact ih (fun y hy => h y (List.mem_cons_of_mem x hy))

theorem scanLoop_stop (device mac : String) (pre : List String) (l : String)
    (post : List String) (o : Outcome String)
    (h : ∀ x ∈ pre, loopBody device mac x = none) (hl : loopBody device mac l = some o) :
    scanLoop device mac (pre ++ l :: post) = o := by
  rw [scanLoop_skip device mac pre _ h]
  simp only [scanLoop, hl]

theorem loopBody_not_qualifying {device mac x : String} (hlen : (Fields x).length = 6)
    (hparse : (Fields x)[HWAddressIndex]? = some mac →
      ∃ fl n, (Fields x)[FlagsIndex]? = some fl ∧ ParseInt fl 0 32 = .ok n)
    (hq : ¬ Qualifies device mac x) : loopBody device mac x = none := by
  obtain ⟨ip, t, fl, hw, mask, dev, hf⟩ := length_six hlen
  rw [loopBody_six hf]
  simp only [Qualifies, hf, DeviceIndex, HWAddressIndex, FlagsIndex] at hparse hq
  simp only [List.getElem?_cons_succ, List.getElem?_cons_zero, Option.some.injEq] at hparse hq
  by_cases h1 : device ≠ "" ∧ dev ≠ device
  · simp [h1]
  · by_cases h2 : hw ≠ mac
    · simp [h2]
    · have hhw : hw = mac := not_not.mp h2
      obtain ⟨fl', n, hfl, hn⟩ := hparse hhw
      subst hfl
      have hfilter : device = "" ∨ dev = device := by
        by_cases hd : device = ""
        · exact Or.inl hd
        · exact Or.inr (not_not.mp (fun hne => h1 ⟨hd, hne⟩))
      have hbit : ¬ andInt n AtfCom = AtfCom := fun hb =>
        hq ⟨hfilter, hhw, fl, n, rfl, hn, hb⟩
      rw [if_neg h1, if_neg h2]
      simp [hn, hbit]

theorem loopBody_qualifying {device mac l : String} (hlen : (Fields l).length = 6)
    (hq : Qualifies device mac l) :
    ∃ ip, (Fields l)[IPAddressIndex]? = some ip ∧
      loopBody device mac l = some (.ret ip none) := by
  obtain ⟨ip, t, fl, hw, mask, dev, hf⟩ := length_six hlen
  refine ⟨ip, by simp [hf, IPAddressIndex], ?_⟩
  rw [loopBody_six hf]
  simp only [Qualifies, hf, DeviceIndex, HWAddressIndex, FlagsIndex] at hq
  simp only [List.getElem?_cons_succ, List.getElem?_cons_zero, Option.some.injEq] at hq
  obtain ⟨hfilter, hhw, fl', n, hfl, hn, hb⟩ := hq
  subst hfl
  have h1 : ¬ (device ≠ "" ∧ dev ≠ device) := by
    rintro ⟨hd, hne⟩
    rcases hfilter with h | h
    · exact hd h
    · exact hne h
  rw [if_neg h1, if_neg (not_not.mpr hhw)]
  simp [hn, hb]

/-- C1. On a table made of a header line, lines `pre`, a line `l` and lines
`post`, where every line of `pre` has six fields, has a parseable flags field
when its hardware address is the MAC, and does not qualify, and where `l` has
six fields and qualifies, `getIPAddress` returns the IP-address field (field 0)
of `l`, the first qualifying line, with no error. -/
theorem getIPAddress_returns_first_qualifying (hdr : String) (pre : List String) (l : String)
    (post : List String) (device mac : String)
    (hpre : ∀ x ∈ pre, (Fields x).length = 6 ∧
      ((Fields x)[HWAddressIndex]? = some mac →
        ∃ fl n, (Fields x)[FlagsIndex]? = some fl ∧ ParseInt fl 0 32 = .ok n) ∧
      ¬ Qualifies device mac x)
    (hlen : (Fields l).length = 6) (hq : Qualifies device mac l) :
    ∃ ip, (Fields l)[IPAddressIndex]? = some ip ∧
      getIPAddress (.ok (hdr :: (pre ++ l :: post))) device mac = .ret ip none := by
  obtain ⟨ip, hip, hbody⟩ := loopBody_qualifying hlen hq
  refine ⟨ip, hip, ?_⟩
  simp only [getIPAddress, List.drop_succ_cons, List.drop_zero]
  exact scanLoop_stop device mac pre l post _
    (fun x hx => loopBody_not_qualifying (hpre x hx).1 (hpre x hx).2.1 (hpre x hx).2.2) hbody

/-- Witness of C1: the header and the single line of the end-to-end scenario,
empty filter, MAC `52:54:00:12:34:56`, give `192.168.121.111`. -/
theorem getIPAddress_returns_first_qualifying_witness :
    getIPAddress (.ok ["IP address HW type Flags HW address Mask Device",
        "192.168.121.111 0x1 0x2 52:54:00:12:34:56 * virbr0"])
      "" "52:54:00:12:34:56" = .ret "192.168.121.111" none := by
  obtain ⟨ip, hip, h⟩ :=
    getIPAddress_returns_first_qualifying "IP address HW type Flags HW address Mask Device" []
      "192.168.121.111 0x1 0x2 52:54:00:12:34:56 * virbr0" [] "" "52:54:00:12:34:56"
      (fun _ hx => absurd hx (List.not_mem_nil _)) (by decide)
      ⟨Or.inl rfl, by decide, "0x2", 2, by decide, by rfl, by decide⟩
  have hfield : (Fields "192.168.121.111 0x1 0x2 52:54:00:12:34:56 * virbr0")[IPAddressIndex]? =
      some "192.168.121.111" := by decide
  rw [hfield] at hip
  rw [← Option.some.inj hip] at h
  exact h

theorem loopBody_incomplete {device mac x : String}
    (hlen : (if device = "" then 4 else 6) ≤ (Fields x).length)
    (hflags : (device = "" ∨ (Fields x)[DeviceIndex]? = some device) →
      (Fields x)[HWAddressIndex]? = some mac →
      ∃ fl n, (Fields x)[FlagsIndex]? = some fl ∧ ParseInt fl 0 32 = .ok n ∧
        andInt n AtfCom ≠ AtfCom) :
    loopBody device mac x = none := by
  have hmatch : (device = "" ∨ (Fields x)[DeviceIndex]? = some device) →
      matchEntry mac (Fields x) = none := by
    intro hfilter
    have h4 : 3 < (Fields x).length := by
      by_cases hd : device = ""
      · simp only [hd, if_true] at hlen; omega
      · simp only [hd, if_false] at hlen; omega
    unfold matchEntry
    simp only [HWAddressIndex, List.getElem?_eq_getElem h4]
    by_cases hhw : (Fields x)[3] = mac
    · have hhw' : (Fields x)[HWAddressIndex]? = some mac := by
        simp only [HWAddressIndex, List.getElem?_eq_getElem h4, hhw]
      obtain ⟨fl, n, hfl, hn, hb⟩ := hflags hfilter hhw'
      simp only [FlagsIndex] at hfl
      simp [hhw, FlagsIndex, hfl, hn, hb]
    · simp [hhw]
  unfold loopBody
  by_cases hd : device = ""
  · simp only [hd, ne_eq, not_true_eq_false, if_false]
    exact hmatch (Or.inl hd)
  · simp only [hd, if_false] at hlen
    have h6 : 5 < (Fields x).length := by omega
    simp only [ne_eq, hd, not_false_eq_true, if_true, DeviceIndex, List.getElem?_eq_getElem h6]
    by_cases hdev : (Fields x)[5] = device
    · simp only [hdev, not_true_eq_false, if_false]
      exact hmatch (Or.inr (by simp only [DeviceIndex, List.getElem?_eq_getElem h6, hdev]))
    · simp [hdev]

theorem scanLoop_all_skipped (device mac : String) (data : List String)
    (h : ∀ x ∈ data, loopBody device mac x = none) :
    scanLoop device mac data = .ret "" (some (.errorf ("could not find " ++ mac))) := by
  have := scanLoop_skip device mac data [] h
  rw [List.append_nil] at this
  rw [this]; rfl

/-- Counterexample to C2 as stated: on a table whose only data line is blank no
line qualifies, yet `getIPAddress` reads `fields[3]` of an empty slice and
panics instead of returning the not-found error; and on a table whose only data
line carries the MAC with the flags field `0xZZ` no line qualifies either, and
the result is the parse error, not the not-found error. -/
theorem getIPAddress_no_qualifying_line_other_outcomes :
    ((∀ x ∈ ["IP address HW type Flags HW address Mask Device", ""].drop 1,
        ¬ Qualifies "" "52:54:00:12:34:56" x) ∧
      getIPAddress (.ok ["IP address HW type Flags HW address Mask Device", ""])
        "" "52:54:00:12:34:56" = .panic 3 0) ∧
    ((∀ x ∈ ["IP address HW type Flags HW address Mask Device",
          "192.168.121.7 0x1 0xZZ 52:54:00:12:34:56 * virbr0"].drop 1,
        ¬ Qualifies "" "52:54:00:12:34:56" x) ∧
      getIPAddress (.ok ["IP address HW type Flags HW address Mask Device",
          "192.168.121.7 0x1 0xZZ 52:54:00:12:34:56 * virbr0"]) "" "52:54:00:12:34:56" =
        .ret "" (some (.wrapf "failed to parse /proc/net/arp flags field 0xZZ: "
          (.num ⟨"ParseInt", "0xZZ", .errSyntax⟩)))) := by
  refine ⟨⟨?_, by decide⟩, ⟨?_, by decide⟩⟩
  · intro x hx
    simp only [List.drop_succ_cons, List.drop_zero, List.mem_singleton] at hx
    subst hx
    rintro ⟨_, h, _⟩
    exact absurd h (by decide)
  · intro x hx
    simp only [List.drop_succ_cons, List.drop_zero, List.mem_singleton] at hx
    subst hx
    rintro ⟨_, _, fl, n, hfl, hn, _⟩
    have hfield : (Fields "192.168.121.7 0x1 0xZZ 52:54:00:12:34:56 * virbr0")[FlagsIndex]? =
        some "0xZZ" := by decide
    rw [hfield] at hfl
    rw [← Option.some.inj hfl] at hn
    have hbad : ParseInt "0xZZ" 0 32 = .error ⟨"ParseInt", "0xZZ", .errSyntax⟩ := by rfl
    rw [hbad] at hn
    cases hn

/-- C2, amended. When every line after the first has at least the fields the
scan reads (four, and six when the device filter is not empty) and every line
that passes the filter and carries the MAC has a well-formed flags field with
the bit `AtfCom` clear, `getIPAddress` returns the empty string with the error
`could not find <MAC>`, whose text contains the queried MAC. -/
theorem getIPAddress_not_found (lines : List String) (device mac : String)
    (quote : String → String)
    (hlen : ∀ x ∈ lines.drop 1, (if device = "" then 4 else 6) ≤ (Fields x).length)
    (hflags : ∀ x ∈ lines.drop 1,
      (device = "" ∨ (Fields x)[DeviceIndex]? = some device) →
      (Fields x)[HWAddressIndex]? = some mac →
      ∃ fl n, (Fields x)[FlagsIndex]? = some fl ∧ ParseInt fl 0 32 = .ok n ∧
        andInt n AtfCom ≠ AtfCom) :
    getIPAddress (.ok lines) device mac =
        .ret "" (some (.errorf ("could not find " ++ mac))) ∧
      (GoError.errorf ("could not find " ++ mac)).Error quote = "could not find " ++ mac ∧
      mac.data <:+: ((GoError.errorf ("could not find " ++ mac)).Error quote).data := by
  refine ⟨?_, rfl, ?_⟩
  · simp only [getIPAddress]
    exact scanLoop_all_skipped device mac _
      (fun x hx => loopBody_incomplete (hlen x hx) (hflags x hx))
  · simp only [GoError.Error, String.data_append]
    exact List.suffix_append _ _ |>.isInfix

/-- Witness of the amended C2: the scenario table with flags `0x0`. -/
theorem getIPAddress_not_found_witness :
    getIPAddress (.ok ["IP address HW type Flags HW address Mask Device",
        "192.168.121.111 0x1 0x0 52:54:00:12:34:56 * virbr0"])
      "" "52:54:00:12:34:56" =
        .ret "" (some (.errorf ("could not find " ++ "52:54:00:12:34:56"))) :=
  (getIPAddress_not_found ["IP address HW type Flags HW address Mask Device",
      "192.168.121.111 0x1 0x0 52:54:00:12:34:56 * virbr0"] "" "52:54:00:12:34:56" id
    (by
      intro x hx
      simp only [List.drop_succ_cons, List.drop_zero, List.mem_singleton] at hx
      subst hx; decide)
    (by
      intro x hx _ _
      simp only [List.drop_succ_cons, List.drop_zero, List.mem_singleton] at hx
      subst hx
      exact ⟨"0x0", 0, by decide, by rfl, by decide⟩)).1

/-- C3. A six-field line whose hardware address is the MAC and whose flags field
is `0x0` is skipped, also when it comes first: with such lines (and lines for
other hardware addresses) in `pre`, the scan goes on and returns the IP address
of the following line `l` with flags `0x2`, matching MAC and accepted device;
and on a table `data` whose lines carrying the MAC all have flags `0x0` the
result is the not-found error. -/
theorem getIPAddress_complete_returned_incomplete_skipped (hdr : String)
    (pre : List String) (l : String) (post data : List String)
    (device mac ip t mask dev : String)
    (hpre : ∀ x ∈ pre, ∃ ip1 t1 fl1 hw1 mask1 dev1,
      Fields x = [ip1, t1, fl1, hw1, mask1, dev1] ∧ (hw1 = mac → fl1 = "0x0"))
    (hl : Fields l = [ip, t, "0x2", mac, mask, dev])
    (hdev : device = "" ∨ dev = device)
    (hdata : ∀ x ∈ data, ∃ ip1 t1 fl1 hw1 mask1 dev1,
      Fields x = [ip1, t1, fl1, hw1, mask1, dev1] ∧ (hw1 = mac → fl1 = "0x0")) :
    getIPAddress (.ok (hdr :: (pre ++ l :: post))) device mac = .ret ip none ∧
    getIPAddress (.ok (hdr :: data)) device mac =
      .ret "" (some (.errorf ("could not find " ++ mac))) := by
  have hskip : ∀ x : String, (∃ ip1 t1 fl1 hw1 mask1 dev1,
      Fields x = [ip1, t1, fl1, hw1, mask1, dev1] ∧ (hw1 = mac → fl1 = "0x0")) →
      loopBody device mac x = none := by
    rintro x ⟨ip1, t1, fl1, hw1, mask1, dev1, hf, h0⟩
    rw [loopBody_six hf]
    by_cases h1 : device ≠ "" ∧ dev1 ≠ device
    · simp [h1]
    · by_cases h2 : hw1 ≠ mac
      · simp [h2]
      · rw [if_neg h1, if_neg h2, h0 (not_not.mp h2)]
        have hp : ParseInt "0x0" 0 32 = .ok 0 := by rfl
        have hb : ¬ andInt 0 AtfCom = AtfCom := by decide
        simp [hp, hb]
  constructor
  · simp only [getIPAddress, List.drop_succ_cons, List.drop_zero]
    refine scanLoop_stop device mac pre l post _ (fun x hx => hskip x (hpre x hx)) ?_
    rw [loopBody_six hl]
    have h1 : ¬ (device ≠ "" ∧ dev ≠ device) := by
      rintro ⟨hd, hne⟩
      rcases hdev with h | h
      · exact hd h
      · exact hne h
    have hp : ParseInt "0x2" 0 32 = .ok 2 := by rfl
    have hb : andInt 2 AtfCom = AtfCom := by decide
    rw [if_neg h1]
    simp [hp, hb]
  · simp only [getIPAddress, List.drop_succ_cons, List.drop_zero]
    exact scanLoop_all_skipped device mac data (fun x hx => hskip x (hdata x hx))

/-- Witness of C3: an incomplete entry for the MAC comes first and a complete
one follows; the complete one is returned, and the incomplete one alone gives
the not-found error. -/
theorem getIPAddress_complete_returned_incomplete_skipped_witness :
    getIPAddress (.ok ["IP address HW type Flags HW address Mask Device",
        "192.168.121.7 0x1 0x0 52:54:00:12:34:56 * virbr0",
        "192.168.121.111 0x1 0x2 52:54:00:12:34:56 * virbr0"])
      "virbr0" "52:54:00:12:34:56" = .ret "192.168.121.111" none ∧
    getIPAddress (.ok ["IP address HW type Flags HW address Mask Device",
        "192.168.121.7 0x1 0x0 52:54:00:12:34:56 * virbr0"])
      "virbr0" "52:54:00:12:34:56" =
        .ret "" (some (.errorf ("could not find " ++ "52:54:00:12:34:56"))) :=
  getIPAddress_complete_returned_incomplete_skipped
    "IP address HW type Flags HW address Mask Device"
    ["192.168.121.7 0x1 0x0 52:54:00:12:34:56 * virbr0"]
    "192.168.121.111 0x1 0x2 52:54:00:12:34:56 * virbr0" []
    ["192.168.121.7 0x1 0x0 52:54:00:12:34:56 * virbr0"]
    "virbr0" "52:54:00:12:34:56" "192.168.121.111" "0x1" "*" "virbr0"
    (by
      intro x hx
      rw [List.mem_singleton] at hx
      subst hx
      exact ⟨"192.168.121.7", "0x1", "0x0", "52:54:00:12:34:56", "*", "virbr0", by decide,
        fun _ => rfl⟩)
    (by decide) (Or.inr rfl)
    (by
      intro x hx
      rw [List.mem_singleton] at hx
      subst hx
      exact ⟨"192.168.121.7", "0x1", "0x0", "52:54:00:12:34:56", "*", "virbr0", by decide,
        fun _ => rfl⟩)

theorem matchEntry_congr_take (mac : String) (f g : List String)
    (h : f.take DeviceIndex = g.take DeviceIndex) : matchEntry mac f = matchEntry mac g := by
  have hget : ∀ i, i < 5 → f[i]? = g[i]? := by
    intro i hi
    have h1 : (f.take 5)[i]? = f[i]? := by rw [List.getElem?_take, if_pos hi]
    have h2 : (g.take 5)[i]? = g[i]? := by rw [List.getElem?_take, if_pos hi]
    simp only [DeviceIndex] at h
    rw [← h1, ← h2, h]
  by_cases hlen : f.length < 5
  · -- a short slice is its own first five fields
    have hf : f.take 5 = f := List.take_of_length_le (by omega)
    have hg : g = f := by
      simp only [DeviceIndex] at h
      rw [hf] at h
      have hl : (g.take 5).length = f.length := by rw [← h]
      rw [List.length_take] at hl
      have : g.take 5 = g := List.take_of_length_le (by omega)
      rw [← this, ← h]
    rw [hg]
  · have hglen : ¬ g.length < 5 := by
      intro hg
      have hl : (f.take DeviceIndex).length = (g.take DeviceIndex).length := by rw [h]
      simp only [DeviceIndex, List.length_take] at hl
      omega
    have hf3 : 3 < f.length := by omega
    have hg3 : 3 < g.length := by omega
    have e3 := hget 3 (by decide)
    have e2 := hget 2 (by decide)
    have e0 := hget 0 (by decide)
    unfold matchEntry
    simp only [HWAddressIndex, FlagsIndex, IPAddressIndex]
    rw [← e3, ← e2, ← e0]
    rw [List.getElem?_eq_getElem hf3, List.getElem?_eq_getElem (show 2 < f.length by omega),
      List.getElem?_eq_getElem (show 0 < f.length by omega)]

theorem scanLoop_congr_take (mac : String) (ls1 ls2 : List String)
    (h : List.Forall₂ (fun a b => (Fields a).take DeviceIndex = (Fields b).take DeviceIndex)
      ls1 ls2) :
    scanLoop "" mac ls1 = scanLoop "" mac ls2 := by
  induction h with
  | nil => rfl
  | cons hab _ ih =>
    simp only [scanLoop, loopBody, ne_eq, not_true_eq_false, if_false]
    rw [matchEntry_congr_take mac _ _ hab, ih]

theorem loopBody_filtered {device mac l dev : String} (hne : device ≠ "")
    (hl : (Fields l)[DeviceIndex]? = some dev) (hdev : dev ≠ device) :
    loopBody device mac l = none := by
  unfold loopBody
  simp [hne, hl, hdev]

theorem parse_message_ne_not_found (quote : String → String) (fl mac : String) (e : NumError) :
    (GoError.wrapf ("failed to parse /proc/net/arp flags field " ++ fl ++ ": ")
      (.num e)).Error quote ≠ (GoError.errorf ("could not find " ++ mac)).Error quote := by
  intro h
  have hd := congrArg String.data h
  simp only [GoError.Error, String.data_append] at hd
  simp only [List.cons_append, List.cons.injEq] at hd
  exact absurd hd.1 (by decide)

/-- C10. On a table made of a header line, lines `pre`, a line `l` and lines
`post`, where every line of `pre` has six fields and either fails the device
filter or the MAC test or has a well-formed flags field with the bit `AtfCom`
clear, and where `l` has six fields, passes the filter and the MAC test and has
a flags field `fl` that `ParseInt` rejects, `getIPAddress` returns the error
`failed to parse /proc/net/arp flags field <fl>: <cause>` whatever `post` holds;
its text contains `fl` and differs from the text of the not-found error. -/
theorem getIPAddress_malformed_flags (hdr : String) (pre : List String) (l : String)
    (post : List String) (device mac ip t fl mask dev : String) (e : NumError)
    (quote : String → String)
    (hpre : ∀ x ∈ pre, (Fields x).length = 6 ∧
      (((device = "" ∨ (Fields x)[DeviceIndex]? = some device) ∧
          (Fields x)[HWAddressIndex]? = some mac) →
        ∃ fl1 n, (Fields x)[FlagsIndex]? = some fl1 ∧ ParseInt fl1 0 32 = .ok n ∧
          andInt n AtfCom ≠ AtfCom))
    (hl : Fields l = [ip, t, fl, mac, mask, dev]) (hdev : device = "" ∨ dev = device)
    (hfl : ParseInt fl 0 32 = .error e) :
    getIPAddress (.ok (hdr :: (pre ++ l :: post))) device mac =
        .ret "" (some (.wrapf ("failed to parse /proc/net/arp flags field " ++ fl ++ ": ")
          (.num e))) ∧
      (GoError.wrapf ("failed to parse /proc/net/arp flags field " ++ fl ++ ": ")
          (.num e)).Error quote =
        "failed to parse /proc/net/arp flags field " ++ fl ++ ": " ++ (GoError.num e).Error quote ∧
      fl.data <:+: ((GoError.wrapf ("failed to parse /proc/net/arp flags field " ++ fl ++ ": ")
          (.num e)).Error quote).data ∧
      (GoError.wrapf ("failed to parse /proc/net/arp flags field " ++ fl ++ ": ")
          (.num e)).Error quote ≠ (GoError.errorf ("could not find " ++ mac)).Error quote := by
  refine ⟨?_, rfl, ?_, parse_message_ne_not_found quote fl mac e⟩
  · simp only [getIPAddress, List.drop_succ_cons, List.drop_zero]
    refine scanLoop_stop device mac pre l post _ ?_ ?_
    · intro x hx
      refine loopBody_incomplete ?_ (fun h1 h2 => (hpre x hx).2 ⟨h1, h2⟩)
      rw [(hpre x hx).1]
      split <;> decide
    · rw [loopBody_six hl]
      have h1 : ¬ (device ≠ "" ∧ dev ≠ device) := by
        rintro ⟨hd, hne⟩
        rcases hdev with h | h
        · exact hd h
        · exact hne h
      rw [if_neg h1]
      simp [hfl]
  · simp only [GoError.Error, String.data_append]
    exact List.IsInfix.trans (List.infix_append _ _ _) (List.prefix_append _ _).isInfix

/-- Witness of C10: the flags field `0xZZ` of the first entry for the MAC is
rejected, and the complete entry after it is not consulted. -/
theorem getIPAddress_malformed_flags_witness :
    getIPAddress (.ok ["IP address HW type Flags HW address Mask Device",
        "192.168.121.9 0x1 0x2 52:54:00:aa:bb:cc * virbr0",
        "192.168.121.7 0x1 0xZZ 52:54:00:12:34:56 * virbr0",
        "192.168.121.111 0x1 0x2 52:54:00:12:34:56 * virbr0"])
      "" "52:54:00:12:34:56" =
        .ret "" (some (.wrapf ("failed to parse /proc/net/arp flags field " ++ "0xZZ" ++ ": ")
          (.num ⟨"ParseInt", "0xZZ", .errSyntax⟩))) :=
  (getIPAddress_malformed_flags "IP address HW type Flags HW address Mask Device"
    ["192.168.121.9 0x1 0x2 52:54:00:aa:bb:cc * virbr0"]
    "192.168.121.7 0x1 0xZZ 52:54:00:12:34:56 * virbr0"
    ["192.168.121.111 0x1 0x2 52:54:00:12:34:56 * virbr0"]
    "" "52:54:00:12:34:56" "192.168.121.7" "0x1" "0xZZ" "*" "virbr0"
    ⟨"ParseInt", "0xZZ", .errSyntax⟩ id
    (by
      intro x hx
      rw [List.mem_singleton] at hx
      subst hx
      refine ⟨by decide, ?_⟩
      rintro ⟨_, h⟩
      exact absurd h (by decide))
    (by decide) (Or.inl rfl) (by rfl)).1

theorem isNetdev_iff (r : List qomListReturn) : isNetdev r = true ↔ "netdev" ∈ names r := by
  induction r with
  | nil => simp [isNetdev, names]
  | cons d ds ih =>
    unfold isNetdev
    by_cases h : d.Name = "netdev"
    · simp [h, names]
    · have h2 : ¬ "netdev" = d.Name := fun e => h e.symm
      simp only [h, if_false, ih, names, List.map_cons, List.mem_cons, h2, false_or]

theorem setProp_Path (device : netDevice) (name value : String) :
    (setProp device name value).Path = device.Path := by
  unfold setProp
  split_ifs <;> rfl

theorem fetchProps_Path (m : Monitor) (path : String) (r : List qomListReturn)
    (device d : netDevice) (h : (fetchProps m path r device).2 = .ok d) :
    d.Path = device.Path := by
  induction r generalizing device with
  | nil =>
    simp only [fetchProps, Except.ok.injEq] at h
    rw [h]
  | cons e es ih =>
    unfold fetchProps at h
    split_ifs at h with hskip
    · exact ih device h
    · cases hg : m.qmpQomGet path e.Name with
      | error err => simp [hg] at h
      | ok value =>
        simp only [hg] at h
        rw [ih _ h, setProp_Path]

/-- The property loop stores under `key` the value served for `key` when the
listing names it, and leaves the field alone otherwise. -/
theorem fetchProps_field (m : Monitor) (path key : String) (g : netDevice → String)
    (hkey : key = "type" ∨ key = "netdev" ∨ key = "mac")
    (hg : ∀ (device : netDevice) (name value : String),
      g (setProp device name value) = if name = key then value else g device)
    (r : List qomListReturn) (device d : netDevice)
    (h : (fetchProps m path r device).2 = .ok d) :
    (key ∈ names r → m.qmpQomGet path key = .ok (g d)) ∧ (key ∉ names r → g d = g device) := by
  induction r generalizing device with
  | nil =>
    simp only [fetchProps, Except.ok.injEq] at h
    simp [names, h]
  | cons e es ih =>
    unfold fetchProps at h
    split_ifs at h with hskip
    · have hne : ¬ key = e.Name := by
        intro hk
        rcases hkey with h1 | h1 | h1
        · exact hskip.1 (hk ▸ h1)
        · exact hskip.2.1 (hk ▸ h1)
        · exact hskip.2.2 (hk ▸ h1)
      have := ih device h
      simpa only [names, List.map_cons, List.mem_cons, hne, false_or] using this
    · cases hq : m.qmpQomGet path e.Name with
      | error err => simp [hq] at h
      | ok value =>
        simp only [hq] at h
        obtain ⟨ih1, ih2⟩ := ih _ h
        by_cases hk : e.Name = key
        · have hval : g (setProp device e.Name value) = value := by rw [hg, if_pos hk]
          have hserved : m.qmpQomGet path key = .ok (g d) := by
            by_cases hin : key ∈ names es
            · exact ih1 hin
            · rw [ih2 hin, hval, ← hk, hq]
          constructor
          · intro _; exact hserved
          · intro hnot
            exact absurd (by simp [names, hk]) hnot
        · have hval : g (setProp device e.Name value) = g device := by rw [hg, if_neg hk]
          have hne : ¬ key = e.Name := fun e1 => hk e1.symm
          simp only [names, List.map_cons, List.mem_cons, hne, false_or]
          exact ⟨ih1, fun hnot => by rw [ih2 hnot, hval]⟩

theorem setProp_Type (device : netDevice) (name value : String) :
    (setProp device name value).Type_ = if name = "type" then value else device.Type_ := by
  unfold setProp
  split_ifs <;> rfl

theorem setProp_Name (device : netDevice) (name value : String) :
    (setProp device name value).Name = if name = "netdev" then value else device.Name := by
  unfold setProp
  split_ifs <;> simp_all

theorem setProp_MacAddress (device : netDevice) (name value : String) :
    (setProp device name value).MacAddress =
      if name = "mac" then value else device.MacAddress := by
  unfold setProp
  split_ifs <;> simp_all

theorem exposesNetdev_of_not_child (m : Monitor) (parentPath : String) (p : qomListReturn)
    (h : ¬ HasPrefix p.Type_ "child<" = true) : exposesNetdev m parentPath p = false := by
  simp [exposesNetdev, h]

theorem exposesNetdev_of_listing (m : Monitor) (parentPath : String) (p : qomListReturn)
    (r : List qomListReturn) (hc : HasPrefix p.Type_ "child<" = true)
    (hr : m.qmpQomList (childPath parentPath p) = .ok r) :
    exposesNetdev m parentPath p = isNetdev r := by
  simp only [exposesNetdev, hc, hr, Bool.true_and]
  by_cases h : "netdev" ∈ names r
  · simp [h, (isNetdev_iff r).mpr h]
  · have : isNetdev r = false := by
      cases hb : isNetdev r with
      | false => rfl
      | true => exact absurd ((isNetdev_iff r).mp hb) h
    simp [h, this]

/-- A successful pass over a listing appends, in order, one device for each
entry that exposes `netdev`. -/
theorem scanChildren_ok (m : Monitor) (parentPath : String) (ps : List qomListReturn)
    (devices out : List netDevice)
    (h : (scanChildren m parentPath ps devices).2 = .ok out) :
    ∃ new, out = devices ++ new ∧
      List.Forall₂ (Discovered m parentPath) (ps.filter (exposesNetdev m parentPath)) new := by
  induction ps generalizing devices with
  | nil =>
    simp only [scanChildren, Except.ok.injEq] at h
    exact ⟨[], by simp [h], List.Forall₂.nil⟩
  | cons p ps ih =>
    unfold scanChildren at h
    split_ifs at h with hc
    · cases hr : m.qmpQomList (parentPath ++ "/" ++ p.Name) with
      | error err => simp [hr] at h
      | ok r =>
        have hexp := exposesNetdev_of_listing m parentPath p r hc hr
        simp only [hr] at h
        split_ifs at h with hn
        · cases hf : (fetchProps m (parentPath ++ "/" ++ p.Name) r
              { Path := parentPath ++ "/" ++ p.Name, Name := "", Type_ := "",
                MacAddress := "" }).2 with
          | error e => simp [hf] at h
          | ok device =>
            simp only [hf] at h
            obtain ⟨new, hout, hall⟩ := ih _ h
            have hpath : device.Path = parentPath ++ "/" ++ p.Name :=
              fetchProps_Path m _ r _ device hf
            refine ⟨device :: new, by simp [hout], ?_⟩
            rw [List.filter_cons_of_pos (by rw [hexp, hn])]
            refine List.Forall₂.cons ⟨hpath, r, ?_, (isNetdev_iff r).mp hn, ?_⟩ hall
            · rw [hpath]; exact hr
            · rw [hpath]; exact hf
        · obtain ⟨new, hout, hall⟩ := ih _ h
          refine ⟨new, hout, ?_⟩
          rw [List.filter_cons_of_neg (by rw [hexp]; exact hn)]
          exact hall
    · obtain ⟨new, hout, hall⟩ := ih _ h
      refine ⟨new, hout, ?_⟩
      rw [List.filter_cons_of_neg (by
        rw [exposesNetdev_of_not_child m parentPath p hc]; exact Bool.false_ne_true)]
      exact hall

/-- A successful run: both root listings were served, and the devices are those
of the first root followed by those of the second. -/
theorem getNetDevices_ok (m : Monitor) (h : (getNetDevices m).2 = none) :
    ∃ L1 L2 new1 new2,
      m.qmpQomList "/machine/peripheral" = .ok L1 ∧
      m.qmpQomList "/machine/peripheral-anon" = .ok L2 ∧
      (getNetDevices m).1 = new1 ++ new2 ∧
      List.Forall₂ (Discovered m "/machine/peripheral")
        (L1.filter (exposesNetdev m "/machine/peripheral")) new1 ∧
      List.Forall₂ (Discovered m "/machine/peripheral-anon")
        (L2.filter (exposesNetdev m "/machine/peripheral-anon")) new2 := by
  unfold getNetDevices at h ⊢
  simp only [rootPaths, scanRoots] at h ⊢
  cases h1 : m.qmpQomList "/machine/peripheral" with
  | error err => simp [h1] at h
  | ok L1 =>
    simp only [h1] at h ⊢
    cases hc1 : (scanChildren m "/machine/peripheral" L1 []).2 with
    | error e => simp [hc1] at h
    | ok d1 =>
      simp only [hc1] at h ⊢
      cases h2 : m.qmpQomList "/machine/peripheral-anon" with
      | error err => simp [h2] at h
      | ok L2 =>
        simp only [h2] at h ⊢
        cases hc2 : (scanChildren m "/machine/peripheral-anon" L2 d1).2 with
        | error e => simp [hc2] at h
        | ok d2 =>
          simp only [hc2]
          obtain ⟨new1, ho1, hall1⟩ := scanChildren_ok m _ L1 [] d1 hc1
          obtain ⟨new2, ho2, hall2⟩ := scanChildren_ok m _ L2 d1 d2 hc2
          refine ⟨L1, L2, new1, new2, rfl, rfl, ?_, hall1, hall2⟩
          simp [ho2, ho1]

theorem fetchProps_total (m : Monitor) (path : String)
    (hget : ∀ property, ∃ v, m.qmpQomGet path property = .ok v)
    (r : List qomListReturn) (device : netDevice) :
    ∃ d, (fetchProps m path r device).2 = .ok d := by
  induction r generalizing device with
  | nil => exact ⟨device, rfl⟩
  | cons e es ih =>
    unfold fetchProps
    split_ifs with hskip
    · exact ih device
    · obtain ⟨v, hv⟩ := hget e.Name
      simp only [hv]
      exact ih _

theorem scanChildren_total (m : Monitor) (parentPath : String)
    (hlist : ∀ path, ∃ r, m.qmpQomList path = .ok r)
    (hget : ∀ path property, ∃ v, m.qmpQomGet path property = .ok v)
    (ps : List qomListReturn) (devices : List netDevice) :
    ∃ out, (scanChildren m parentPath ps devices).2 = .ok out := by
  induction ps generalizing devices with
  | nil => exact ⟨devices, rfl⟩
  | cons p ps ih =>
    unfold scanChildren
    split_ifs with hc
    · obtain ⟨r, hr⟩ := hlist (parentPath ++ "/" ++ p.Name)
      simp only [hr]
      split_ifs with hn
      · obtain ⟨d, hd⟩ := fetchProps_total m (parentPath ++ "/" ++ p.Name) (hget _) r
          ⟨parentPath ++ "/" ++ p.Name, "", "", ""⟩
        simp only [hd]
        exact ih _
      · exact ih _
    · exact ih _

theorem getNetDevices_total (m : Monitor)
    (hlist : ∀ path, ∃ r, m.qmpQomList path = .ok r)
    (hget : ∀ path property, ∃ v, m.qmpQomGet path property = .ok v) :
    (getNetDevices m).2 = none := by
  unfold getNetDevices
  simp only [rootPaths, scanRoots]
  obtain ⟨L1, h1⟩ := hlist "/machine/peripheral"
  obtain ⟨L2, h2⟩ := hlist "/machine/peripheral-anon"
  simp only [h1]
  obtain ⟨d1, hd1⟩ := scanChildren_total m "/machine/peripheral" hlist hget L1 []
  simp only [hd1, h2]
  obtain ⟨d2, hd2⟩ := scanChildren_total m "/machine/peripheral-anon" hlist hget L2 d1
  simp only [hd2]

theorem forall₂_map_Path (m : Monitor) (parentPath : String) (ps : List qomListReturn)
    (new : List netDevice) (h : List.Forall₂ (Discovered m parentPath) ps new) :
    new.map (fun d => d.Path) = ps.map (childPath parentPath) := by
  induction h with
  | nil => rfl
  | cons hd _ ih => simp only [List.map_cons, ih, hd.1]

/-- C8. On a run without error, with `L1` and `L2` the listings of
`/machine/peripheral` and `/machine/peripheral-anon`, the paths of the returned
devices are the paths of the entries of `L1` that expose `netdev`, in the order
of `L1`, followed by those of the entries of `L2` that expose `netdev`, in the
order of `L2`. -/
theorem getNetDevices_order (m : Monitor) (L1 L2 : List qomListReturn)
    (hok : (getNetDevices m).2 = none)
    (h1 : m.qmpQomList "/machine/peripheral" = .ok L1)
    (h2 : m.qmpQomList "/machine/peripheral-anon" = .ok L2) :
    (getNetDevices m).1.map (fun d => d.Path) =
      (L1.filter (exposesNetdev m "/machine/peripheral")).map
          (childPath "/machine/peripheral") ++
        (L2.filter (exposesNetdev m "/machine/peripheral-anon")).map
          (childPath "/machine/peripheral-anon") := by
  obtain ⟨K1, K2, new1, new2, k1, k2, hdev, hall1, hall2⟩ := getNetDevices_ok m hok
  rw [h1] at k1
  rw [h2] at k2
  cases k1
  cases k2
  rw [hdev, List.map_append, forall₂_map_Path m _ _ _ hall1, forall₂_map_Path m _ _ _ hall2]

theorem fetchProps_failure (m : Monitor) (path : String) (q : Request) (e : GoError)
    (hfail : failure m q = some e) (r : List qomListReturn) (device : netDevice)
    (hq : q ∈ (fetchProps m path r device).1) :
    (fetchProps m path r device).2 = .error e := by
  induction r generalizing device with
  | nil => simp [fetchProps] at hq
  | cons d ds ih =>
    unfold fetchProps at hq ⊢
    split_ifs at hq ⊢ with hskip
    · exact ih device hq
    · cases hg : m.qmpQomGet path d.Name with
      | error err =>
        simp only [hg, List.mem_singleton] at hq ⊢
        subst hq
        simp only [failure, hg, Option.some.injEq] at hfail
        rw [hfail]
      | ok value =>
        simp only [hg, List.mem_cons] at hq ⊢
        rcases hq with hq | hq
        · subst hq
          simp [failure, hg] at hfail
        · exact ih _ hq

theorem scanChildren_failure (m : Monitor) (parentPath : String) (q : Request) (e : GoError)
    (hfail : failure m q = some e) (ps : List qomListReturn) (devices : List netDevice)
    (hq : q ∈ (scanChildren m parentPath ps devices).1) :
    (scanChildren m parentPath ps devices).2 = .error e := by
  induction ps generalizing devices with
  | nil => simp [scanChildren] at hq
  | cons p ps ih =>
    unfold scanChildren at hq ⊢
    split_ifs at hq ⊢ with hc
    · cases hr : m.qmpQomList (parentPath ++ "/" ++ p.Name) with
      | error err =>
        simp only [hr, List.mem_singleton] at hq ⊢
        subst hq
        simp only [failure, hr, Option.some.injEq] at hfail
        rw [hfail]
      | ok r =>
        have hhead : q ≠ .list (parentPath ++ "/" ++ p.Name) := by
          intro hqe
          subst hqe
          simp [failure, hr] at hfail
        simp only [hr] at hq ⊢
        split_ifs at hq ⊢ with hn
        · cases hf : (fetchProps m (parentPath ++ "/" ++ p.Name) r
              ⟨parentPath ++ "/" ++ p.Name, "", "", ""⟩).2 with
          | error e1 =>
            simp only [hf, List.mem_cons] at hq ⊢
            rcases hq with hq | hq
            · exact absurd hq hhead
            · have := fetchProps_failure m _ q e hfail r _ hq
              rw [hf] at this
              rw [Except.error.inj this]
          | ok device =>
            simp only [hf, List.mem_cons, List.mem_append] at hq ⊢
            rcases hq with hq | hq | hq
            · exact absurd hq hhead
            · have := fetchProps_failure m _ q e hfail r _ hq
              rw [hf] at this
              exact absurd this (by simp)
            · exact ih _ hq
        · simp only [List.mem_cons] at hq
          rcases hq with hq | hq
          · exact absurd hq hhead
          · exact ih _ hq
    · exact ih _ hq

theorem scanRoots_failure (m : Monitor) (q : Request) (e : GoError)
    (hfail : failure m q = some e) (roots : List String) (devices : List netDevice)
    (hq : q ∈ (scanRoots m roots devices).1) :
    (scanRoots m roots devices).2 = .error e := by
  induction roots generalizing devices with
  | nil => simp [scanRoots] at hq
  | cons parentPath roots ih =>
    unfold scanRoots at hq ⊢
    cases hr : m.qmpQomList parentPath with
    | error err =>
      simp only [hr, List.mem_singleton] at hq ⊢
      subst hq
      simp only [failure, hr, Option.some.injEq] at hfail
      rw [hfail]
    | ok listResponse =>
      have hhead : q ≠ .list parentPath := by
        intro hqe
        subst hqe
        simp [failure, hr] at hfail
      simp only [hr] at hq ⊢
      cases hc : (scanChildren m parentPath listResponse devices).2 with
      | error e1 =>
        simp only [hc, List.mem_cons] at hq ⊢
        rcases hq with hq | hq
        · exact absurd hq hhead
        · have := scanChildren_failure m _ q e hfail listResponse _ hq
          rw [hc] at this
          exact this
      | ok out =>
        simp only [hc, List.mem_cons, List.mem_append] at hq ⊢
        rcases hq with hq | hq | hq
        · exact absurd hq hhead
        · have := scanChildren_failure m _ q e hfail listResponse _ hq
          rw [hc] at this
          exact absurd this (by simp)
        · exact ih _ hq

theorem getNetDevices_failure (m : Monitor) (q : Request) (e : GoError)
    (hq : q ∈ getNetDevicesRequests m) (hfail : failure m q = some e) :
    getNetDevices m = ([], some e) := by
  unfold getNetDevices
  rw [scanRoots_failure m q e hfail rootPaths [] hq]

/-- C5. When a request that `getNetDevices` sends fails with error `cause`, the
whole call returns no device at all and an error that wraps `cause`: for a
listing of `path` its text is `failed to get qmp qom list <path>: <cause>`, for
a get of `property` at `path` it is
`failed to get qmp qom property <path> <property>: <cause>`. -/
theorem getNetDevices_all_or_nothing (m : Monitor) (path property : String) (cause : GoError)
    (quote : String → String) :
    ((Request.list path ∈ getNetDevicesRequests m ∧ m.qmpQomList path = .error cause) →
      ∃ e, getNetDevices m = ([], some e) ∧ e.Unwrap = some cause ∧
        e.Error quote = "failed to get qmp qom list " ++ path ++ ": " ++ cause.Error quote) ∧
    ((Request.get path property ∈ getNetDevicesRequests m ∧
        m.qmpQomGet path property = .error cause) →
      ∃ e, getNetDevices m = ([], some e) ∧ e.Unwrap = some cause ∧
        e.Error quote =
          "failed to get qmp qom property " ++ path ++ " " ++ property ++ ": " ++
            cause.Error quote) := by
  constructor
  · rintro ⟨hq, hfail⟩
    exact ⟨.wrapf ("failed to get qmp qom list " ++ path ++ ": ") cause,
      getNetDevices_failure m _ _ hq (by simp only [failure, hfail]), rfl, rfl⟩
  · rintro ⟨hq, hfail⟩
    exact ⟨.wrapf ("failed to get qmp qom property " ++ path ++ " " ++ property ++ ": ") cause,
      getNetDevices_failure m _ _ hq (by simp only [failure, hfail]), rfl, rfl⟩

theorem forall₂_mem_right {α β : Type} (R : α → β → Prop) (l1 : List α) (l2 : List β)
    (h : List.Forall₂ R l1 l2) (b : β) (hb : b ∈ l2) : ∃ a, a ∈ l1 ∧ R a b := by
  induction h with
  | nil => simp at hb
  | cons hd _ ih =>
    rcases List.mem_cons.mp hb with hb | hb
    · subst hb
      exact ⟨_, List.mem_cons_self _ _, hd⟩
    · obtain ⟨a, ha, hr⟩ := ih hb
      exact ⟨a, List.mem_cons_of_mem _ ha, hr⟩

theorem discovered_properties (m : Monitor) (parentPath : String) (p : qomListReturn)
    (d : netDevice) (h : Discovered m parentPath p d) :
    ∃ r, m.qmpQomList d.Path = .ok r ∧ "netdev" ∈ names r ∧
      m.qmpQomGet d.Path "netdev" = .ok d.Name ∧
      ("mac" ∈ names r → m.qmpQomGet d.Path "mac" = .ok d.MacAddress) ∧
      ("mac" ∉ names r → d.MacAddress = "") ∧
      ("type" ∈ names r → m.qmpQomGet d.Path "type" = .ok d.Type_) ∧
      ("type" ∉ names r → d.Type_ = "") := by
  obtain ⟨_, r, hr, hn, hf⟩ := h
  have hname := fetchProps_field m d.Path "netdev" (fun x => x.Name)
    (Or.inr (Or.inl rfl)) setProp_Name r _ d hf
  have hmac := fetchProps_field m d.Path "mac" (fun x => x.MacAddress)
    (Or.inr (Or.inr rfl)) setProp_MacAddress r _ d hf
  have htype := fetchProps_field m d.Path "type" (fun x => x.Type_)
    (Or.inl rfl) setProp_Type r _ d hf
  exact ⟨r, hr, hn, hname.1 hn, hmac.1, hmac.2, htype.1, htype.2⟩

theorem sampleMonitor_lists (path : String) : ∃ r, sampleMonitor.qmpQomList path = .ok r := by
  unfold sampleMonitor
  dsimp only
  split_ifs <;> exact ⟨_, rfl⟩

theorem sampleMonitor_gets (path property : String) :
    ∃ v, sampleMonitor.qmpQomGet path property = .ok v := by
  unfold sampleMonitor
  dsimp only
  split_ifs <;> exact ⟨_, rfl⟩

/-- Witness of C5: the listing of `/machine/peripheral-anon` fails after `net0`
has been discovered, and on another transport the get of `mac` of the unnamed
device fails after `net0` has been discovered; in both runs nothing is returned
but the error naming the path, and the property for the get. -/
theorem getNetDevices_all_or_nothing_witness :
    (∃ e, getNetDevices brokenMonitor = ([], some e) ∧ e.Unwrap = some (.ext "EOF") ∧
      e.Error id = "failed to get qmp qom list " ++ "/machine/peripheral-anon" ++ ": " ++
        (GoError.ext "EOF").Error id) ∧
    (∃ e, getNetDevices brokenGetMonitor = ([], some e) ∧
      e.Unwrap = some (.ext "i/o timeout") ∧
      e.Error id = "failed to get qmp qom property " ++ "/machine/peripheral-anon/device[0]" ++
        " " ++ "mac" ++ ": " ++ (GoError.ext "i/o timeout").Error id) :=
  ⟨(getNetDevices_all_or_nothing brokenMonitor "/machine/peripheral-anon" "" (.ext "EOF")
      id).1 ⟨by decide, rfl⟩,
    (getNetDevices_all_or_nothing brokenGetMonitor "/machine/peripheral-anon/device[0]" "mac"
      (.ext "i/o timeout") id).2 ⟨by decide, rfl⟩⟩

/-- Witness of C8: on the sample guest the device under `/machine/peripheral`
comes before the one under `/machine/peripheral-anon`. -/
theorem getNetDevices_order_witness :
    (getNetDevices sampleMonitor).1.map (fun d => d.Path) =
      ["/machine/peripheral/net0", "/machine/peripheral-anon/device[0]"] := by
  have h := getNetDevices_order sampleMonitor
    [⟨"type", "string"⟩, ⟨"net0", "child<virtio-net-pci>"⟩, ⟨"disk0", "child<virtio-blk-pci>"⟩]
    [⟨"type", "string"⟩, ⟨"device[0]", "child<e1000>"⟩]
    (by decide) rfl rfl
  rw [h]
  decide

/-- Every device `getNetDevices` returns belongs to a path whose listing was
served and has an entry named `netdev`; its `Name` is the value served for
`netdev`; its `MacAddress` and `Type` are the values served for `mac` and `type`
when the listing names them, and are empty otherwise. -/
theorem getNetDevices_properties_listed (m : Monitor) (d : netDevice)
    (hd : d ∈ (getNetDevices m).1) :
    ∃ r, m.qmpQomList d.Path = .ok r ∧ "netdev" ∈ names r ∧
      m.qmpQomGet d.Path "netdev" = .ok d.Name ∧
      ("mac" ∈ names r → m.qmpQomGet d.Path "mac" = .ok d.MacAddress) ∧
      ("mac" ∉ names r → d.MacAddress = "") ∧
      ("type" ∈ names r → m.qmpQomGet d.Path "type" = .ok d.Type_) ∧
      ("type" ∉ names r → d.Type_ = "") := by
  have hok : (getNetDevices m).2 = none := by
    unfold getNetDevices at hd ⊢
    cases hs : (scanRoots m rootPaths []).2 with
    | error e => simp [hs] at hd
    | ok out => rfl
  obtain ⟨L1, L2, new1, new2, _, _, hdev, hall1, hall2⟩ := getNetDevices_ok m hok
  rw [hdev, List.mem_append] at hd
  rcases hd with hd | hd
  · obtain ⟨p, _, hp⟩ := forall₂_mem_right _ _ _ hall1 d hd
    exact discovered_properties m _ p d hp
  · obtain ⟨p, _, hp⟩ := forall₂_mem_right _ _ _ hall2 d hd
    exact discovered_properties m _ p d hp

/-- C14. `getIPAddress` drops the first line whatever it holds: the result on a
table is the result of the scanning loop over the lines after the first, so it
is the same for any other first line; a table of one line, qualifying or not,
and the empty table give the not-found error. -/
theorem getIPAddress_discards_first_line (first other : String) (rest : List String)
    (device mac : String) :
    getIPAddress (.ok (first :: rest)) device mac = scanLoop device mac rest ∧
    getIPAddress (.ok (first :: rest)) device mac =
      getIPAddress (.ok (other :: rest)) device mac ∧
    getIPAddress (.ok [first]) device mac =
      .ret "" (some (.errorf ("could not find " ++ mac))) ∧
    getIPAddress (.ok []) device mac =
      .ret "" (some (.errorf ("could not find " ++ mac))) :=
  ⟨rfl, rfl, rfl, rfl⟩

theorem scanLoop_remove_skipped (device mac : String) (pre : List String) (l : String)
    (post : List String) (h : loopBody device mac l = none) :
    scanLoop device mac (pre ++ l :: post) = scanLoop device mac (pre ++ post) := by
  induction pre with
  | nil => simp only [List.nil_append, scanLoop, h]
  | cons x xs ih =>
    show scanLoop device mac (x :: (xs ++ l :: post)) = scanLoop device mac (x :: (xs ++ post))
    simp only [scanLoop, ih]

theorem loopBody_other_mac {device mac l ip t fl hw mask dev : String}
    (hl : Fields l = [ip, t, fl, hw, mask, dev]) (hne : hw ≠ mac) :
    loopBody device mac l = none := by
  rw [loopBody_six hl]
  by_cases h1 : device ≠ "" ∧ dev ≠ device
  · simp [h1]
  · simp [h1, hne]

/-- C16. A six-field line whose hardware-address field is not, character for
character, the queried MAC is skipped: the result is the one of the table
without that line, so the line is never the one returned. Nothing is
normalised: the field may differ from the MAC in letter case or separator
only. -/
theorem getIPAddress_mac_exact_match (hdr : String) (pre : List String) (l : String)
    (post : List String) (device mac ip t fl hw mask dev : String)
    (hl : Fields l = [ip, t, fl, hw, mask, dev]) (hne : hw ≠ mac) :
    getIPAddress (.ok (hdr :: (pre ++ l :: post))) device mac =
      getIPAddress (.ok (hdr :: (pre ++ post))) device mac := by
  simp only [getIPAddress, List.drop_succ_cons, List.drop_zero]
  exact scanLoop_remove_skipped device mac pre l post (loopBody_other_mac hl hne)

/-- Witness of C16: complete entries that spell the MAC in upper case and with
dashes are passed over; the query ends with the not-found error of the table
without them. -/
theorem getIPAddress_mac_exact_match_witness :
    getIPAddress (.ok ("IP address HW type Flags HW address Mask Device" ::
        ([] ++ "192.168.121.111 0x1 0x2 52:54:00:AB:CD:EF * virbr0" :: [])))
      "" "52:54:00:ab:cd:ef" =
        getIPAddress (.ok ("IP address HW type Flags HW address Mask Device" :: ([] ++ [])))
          "" "52:54:00:ab:cd:ef" ∧
    getIPAddress (.ok ("IP address HW type Flags HW address Mask Device" ::
        ([] ++ "192.168.121.111 0x1 0x2 52-54-00-ab-cd-ef * virbr0" :: [])))
      "" "52:54:00:ab:cd:ef" =
        getIPAddress (.ok ("IP address HW type Flags HW address Mask Device" :: ([] ++ [])))
          "" "52:54:00:ab:cd:ef" :=
  ⟨getIPAddress_mac_exact_match "IP address HW type Flags HW address Mask Device" []
      "192.168.121.111 0x1 0x2 52:54:00:AB:CD:EF * virbr0" [] "" "52:54:00:ab:cd:ef"
      "192.168.121.111" "0x1" "0x2" "52:54:00:AB:CD:EF" "*" "virbr0" (by decide) (by decide),
    getIPAddress_mac_exact_match "IP address HW type Flags HW address Mask Device" []
      "192.168.121.111 0x1 0x2 52-54-00-ab-cd-ef * virbr0" [] "" "52:54:00:ab:cd:ef"
      "192.168.121.111" "0x1" "0x2" "52-54-00-ab-cd-ef" "*" "virbr0" (by decide) (by decide)⟩

theorem matchEntry_parse_error {mac : String} {fields : List String} {v pre : String}
    {e : NumError}
    (h : matchEntry mac fields = some (.ret v (some (.wrapf pre (.num e))))) :
    fields[HWAddressIndex]? = some mac ∧
      ∃ fl, fields[FlagsIndex]? = some fl ∧ ParseInt fl 0 32 = .error e ∧
        pre = "failed to parse /proc/net/arp flags field " ++ fl ++ ": " := by
  unfold matchEntry at h
  cases h3 : fields[HWAddressIndex]? with
  | none => simp [h3] at h
  | some hw =>
    simp only [h3] at h
    by_cases hhw : hw = mac
    · subst hhw
      simp only [ne_eq, not_true_eq_false, if_false] at h
      cases h2 : fields[FlagsIndex]? with
      | none => simp [h2] at h
      | some fl =>
        simp only [h2] at h
        cases hp : ParseInt fl 0 32 with
        | error e1 =>
          simp only [hp, Option.some.injEq, Outcome.ret.injEq, GoError.wrapf.injEq,
            GoError.num.injEq] at h
          obtain ⟨_, hpre, he⟩ := h
          exact ⟨rfl, fl, rfl, he ▸ hp, hpre.symm⟩
        | ok flags =>
          simp only [hp] at h
          split_ifs at h
          · cases h0 : fields[IPAddressIndex]? with
            | none => simp [h0] at h
            | some ip => simp [h0] at h
    · simp [hhw] at h

theorem loopBody_parse_error {device mac x v pre : String} {e : NumError}
    (h : loopBody device mac x = some (.ret v (some (.wrapf pre (.num e))))) :
    (device = "" ∨ (Fields x)[DeviceIndex]? = some device) ∧
      (Fields x)[HWAddressIndex]? = some mac ∧
      ∃ fl, (Fields x)[FlagsIndex]? = some fl ∧ ParseInt fl 0 32 = .error e ∧
        pre = "failed to parse /proc/net/arp flags field " ++ fl ++ ": " := by
  unfold loopBody at h
  by_cases hd : device = ""
  · simp only [hd, ne_eq, not_true_eq_false, if_false] at h
    exact ⟨Or.inl hd, matchEntry_parse_error h⟩
  · simp only [ne_eq, hd, not_false_eq_true, if_true] at h
    cases h5 : (Fields x)[DeviceIndex]? with
    | none => simp [h5] at h
    | some dev =>
      simp only [h5] at h
      by_cases hdev : dev = device
      · subst hdev
        simp only [not_true_eq_false, if_false] at h
        exact ⟨Or.inr rfl, matchEntry_parse_error h⟩
      · simp [hdev] at h

theorem scanLoop_parse_error (device mac : String) (data : List String) (v pre : String)
    (e : NumError)
    (h : scanLoop device mac data = .ret v (some (.wrapf pre (.num e)))) :
    ∃ x ∈ data, (device = "" ∨ (Fields x)[DeviceIndex]? = some device) ∧
      (Fields x)[HWAddressIndex]? = some mac ∧
      ∃ fl, (Fields x)[FlagsIndex]? = some fl ∧ ParseInt fl 0 32 = .error e ∧
        pre = "failed to parse /proc/net/arp flags field " ++ fl ++ ": " := by
  induction data with
  | nil => simp [scanLoop] at h
  | cons x xs ih =>
    unfold scanLoop at h
    cases hb : loopBody device mac x with
    | none =>
      simp only [hb] at h
      obtain ⟨y, hy, hrest⟩ := ih h
      exact ⟨y, List.mem_cons_of_mem _ hy, hrest⟩
    | some o =>
      simp only [hb] at h
      subst h
      exact ⟨x, List.mem_cons_self _ _, loopBody_parse_error hb⟩

/-- C18. The flags field is parsed only on a line that has passed the device
filter and the MAC test. A six-field line `l` with a flags field `ParseInt`
rejects that fails the filter or carries another hardware address raises no
error: the result is the one of the table without it. And whenever
`getIPAddress` returns a parse error, some line after the first passes both
tests and has the rejected flags field the error names. -/
theorem getIPAddress_flags_parsed_lazily (hdr : String) (pre : List String) (l : String)
    (post lines : List String) (device mac ip t fl hw mask dev v errPre : String)
    (e e1 : NumError)
    (hl : Fields l = [ip, t, fl, hw, mask, dev]) (_hfl : ParseInt fl 0 32 = .error e)
    (hrej : (device ≠ "" ∧ dev ≠ device) ∨ hw ≠ mac)
    (herr : getIPAddress (.ok lines) device mac = .ret v (some (.wrapf errPre (.num e1)))) :
    getIPAddress (.ok (hdr :: (pre ++ l :: post))) device mac =
        getIPAddress (.ok (hdr :: (pre ++ post))) device mac ∧
      ∃ x ∈ lines.drop 1, (device = "" ∨ (Fields x)[DeviceIndex]? = some device) ∧
        (Fields x)[HWAddressIndex]? = some mac ∧
        ∃ fl1, (Fields x)[FlagsIndex]? = some fl1 ∧ ParseInt fl1 0 32 = .error e1 ∧
          errPre = "failed to parse /proc/net/arp flags field " ++ fl1 ++ ": " := by
  constructor
  · simp only [getIPAddress, List.drop_succ_cons, List.drop_zero]
    apply scanLoop_remove_skipped
    rw [loopBody_six hl]
    rcases hrej with h | h
    · simp [h]
    · by_cases h1 : device ≠ "" ∧ dev ≠ device
      · simp [h1]
      · simp [h1, h]
  · exact scanLoop_parse_error device mac _ v errPre e1 herr

/-- Witness of C18: the entry of another host and the entry on another device
both have the flags field `0xZZ` and raise no error; the table whose matching
line has `0xZZ` gives the parse error, and that line passes both tests. -/
theorem getIPAddress_flags_parsed_lazily_witness :
    getIPAddress (.ok ("IP address HW type Flags HW address Mask Device" ::
        (["192.168.121.9 0x1 0xZZ 52:54:00:aa:bb:cc * virbr0"] ++
          "192.168.121.7 0x1 0xZZ 52:54:00:12:34:56 * eth0" ::
          ["192.168.121.111 0x1 0x2 52:54:00:12:34:56 * virbr0"])))
      "virbr0" "52:54:00:12:34:56" =
        getIPAddress (.ok ("IP address HW type Flags HW address Mask Device" ::
          (["192.168.121.9 0x1 0xZZ 52:54:00:aa:bb:cc * virbr0"] ++
            ["192.168.121.111 0x1 0x2 52:54:00:12:34:56 * virbr0"])))
          "virbr0" "52:54:00:12:34:56" ∧
      ∃ x ∈ ["IP address HW type Flags HW address Mask Device",
          "192.168.121.7 0x1 0xZZ 52:54:00:12:34:56 * virbr0"].drop 1,
        ("virbr0" = "" ∨ (Fields x)[DeviceIndex]? = some "virbr0") ∧
        (Fields x)[HWAddressIndex]? = some "52:54:00:12:34:56" ∧
        ∃ fl1, (Fields x)[FlagsIndex]? = some fl1 ∧
          ParseInt fl1 0 32 = .error ⟨"ParseInt", "0xZZ", .errSyntax⟩ ∧
          "failed to parse /proc/net/arp flags field 0xZZ: " =
            "failed to parse /proc/net/arp flags field " ++ fl1 ++ ": " :=
  getIPAddress_flags_parsed_lazily "IP address HW type Flags HW address Mask Device"
    ["192.168.121.9 0x1 0xZZ 52:54:00:aa:bb:cc * virbr0"]
    "192.168.121.7 0x1 0xZZ 52:54:00:12:34:56 * eth0"
    ["192.168.121.111 0x1 0x2 52:54:00:12:34:56 * virbr0"]
    ["IP address HW type Flags HW address Mask Device",
      "192.168.121.7 0x1 0xZZ 52:54:00:12:34:56 * virbr0"]
    "virbr0" "52:54:00:12:34:56" "192.168.121.7" "0x1" "0xZZ" "52:54:00:12:34:56" "*" "eth0"
    "" "failed to parse /proc/net/arp flags field 0xZZ: "
    ⟨"ParseInt", "0xZZ", .errSyntax⟩ ⟨"ParseInt", "0xZZ", .errSyntax⟩
    (by decide) (by rfl) (Or.inl ⟨by decide, by decide⟩) (by decide)

theorem childPath_roots_ne (p1 p2 : qomListReturn) :
    childPath "/machine/peripheral" p1 ≠ childPath "/machine/peripheral-anon" p2 := by
  intro h
  have hd := congrArg String.data h
  simp only [childPath, String.data_append] at hd
  simp only [List.cons_append, List.nil_append, List.cons.injEq, true_and] at hd
  exact absurd hd.1 (by decide)

theorem childPath_injective (parentPath : String) (p1 p2 : qomListReturn)
    (h : childPath parentPath p1 = childPath parentPath p2) : p1.Name = p2.Name := by
  have hd := congrArg String.data h
  simp only [childPath, String.data_append, List.append_assoc] at hd
  have h2 := List.append_cancel_left (List.append_cancel_left hd)
  exact String.ext h2

theorem nodup_filter_childPath (parentPath : String) (f : qomListReturn → Bool)
    (L : List qomListReturn) (h : (names L).Nodup) :
    ((L.filter f).map (childPath parentPath)).Nodup := by
  induction L with
  | nil => simp
  | cons x xs ih =>
    simp only [names, List.map_cons, List.nodup_cons] at h
    have ih1 := ih h.2
    by_cases hf : f x = true
    · rw [List.filter_cons_of_pos hf, List.map_cons, List.nodup_cons]
      refine ⟨?_, ih1⟩
      intro hmem
      obtain ⟨y, hy, hxy⟩ := List.mem_map.mp hmem
      have hname := childPath_injective parentPath y x hxy
      exact h.1 (List.mem_map.mpr ⟨y, (List.mem_filter.mp hy).1, hname⟩)
    · rw [List.filter_cons_of_neg hf]
      exact ih1

/-- C17. When the entries of the listing of `/machine/peripheral` have pairwise
distinct names, and so have those of `/machine/peripheral-anon`, the paths of
the devices `getNetDevices` returns are pairwise distinct; and whatever the
names are, a path built under `/machine/peripheral` differs from every path
built under `/machine/peripheral-anon`. -/
theorem getNetDevices_paths_distinct (m : Monitor) (p1 p2 : qomListReturn)
    (h1 : ∀ L, m.qmpQomList "/machine/peripheral" = .ok L → (names L).Nodup)
    (h2 : ∀ L, m.qmpQomList "/machine/peripheral-anon" = .ok L → (names L).Nodup) :
    ((getNetDevices m).1.map (fun d => d.Path)).Nodup ∧
      childPath "/machine/peripheral" p1 ≠ childPath "/machine/peripheral-anon" p2 := by
  refine ⟨?_, childPath_roots_ne p1 p2⟩
  cases hr : (getNetDevices m).2 with
  | some e =>
    have hnil : (getNetDevices m).1 = [] := by
      unfold getNetDevices at hr ⊢
      cases hs : (scanRoots m rootPaths []).2 with
      | error e1 => rfl
      | ok out => simp [hs] at hr
    rw [hnil]
    exact List.nodup_nil
  | none =>
    obtain ⟨L1, L2, new1, new2, k1, k2, hdev, hall1, hall2⟩ := getNetDevices_ok m hr
    rw [hdev, List.map_append, forall₂_map_Path m _ _ _ hall1, forall₂_map_Path m _ _ _ hall2]
    refine List.Nodup.append (nodup_filter_childPath _ _ L1 (h1 L1 k1))
      (nodup_filter_childPath _ _ L2 (h2 L2 k2)) ?_
    intro x hx1 hx2
    obtain ⟨a, _, ha⟩ := List.mem_map.mp hx1
    obtain ⟨b, _, hb⟩ := List.mem_map.mp hx2
    exact childPath_roots_ne a b (ha.trans hb.symm)

/-- Witness of C17: the two devices of the sample guest have distinct paths, and
entries of the same name under the two roots have distinct paths. -/
theorem getNetDevices_paths_distinct_witness :
    ((getNetDevices sampleMonitor).1.map (fun d => d.Path)).Nodup ∧
      childPath "/machine/peripheral" ⟨"net0", "child<virtio-net-pci>"⟩ ≠
        childPath "/machine/peripheral-anon" ⟨"net0", "child<virtio-net-pci>"⟩ :=
  getNetDevices_paths_distinct sampleMonitor ⟨"net0", "child<virtio-net-pci>"⟩
    ⟨"net0", "child<virtio-net-pci>"⟩
    (by intro L h; cases h; decide) (by intro L h; cases h; decide)

theorem fetchProps_requests_ok (m : Monitor) (path : String) (r : List qomListReturn)
    (device d : netDevice) (h : (fetchProps m path r device).2 = .ok d) :
    (fetchProps m path r device).1 = propertyGets path r := by
  induction r generalizing device with
  | nil => rfl
  | cons e es ih =>
    unfold fetchProps at h ⊢
    split_ifs at h ⊢ with hskip
    · have hw : wanted e = false := by
        simp only [wanted, decide_eq_false_iff_not, not_or]
        exact hskip
      rw [ih device h]
      simp only [propertyGets, List.filter_cons, hw, Bool.false_eq_true, if_false]
    · have hw : wanted e = true := by
        simp only [wanted, decide_eq_true_eq]
        by_contra hc
        exact hskip (by simpa only [not_or] using hc)
      cases hq : m.qmpQomGet path e.Name with
      | error err => simp [hq] at h
      | ok value =>
        simp only [hq] at h ⊢
        rw [ih _ h]
        simp only [propertyGets, List.filter_cons, hw, if_true, List.map_cons]

theorem scanChildren_requests_ok (m : Monitor) (parentPath : String)
    (ps : List qomListReturn) (devices out : List netDevice)
    (h : (scanChildren m parentPath ps devices).2 = .ok out) :
    (scanChildren m parentPath ps devices).1 = ps.flatMap (visit m parentPath) := by
  induction ps generalizing devices with
  | nil => rfl
  | cons p ps ih =>
    unfold scanChildren at h ⊢
    rw [List.flatMap_cons]
    split_ifs at h ⊢ with hc
    · cases hr : m.qmpQomList (parentPath ++ "/" ++ p.Name) with
      | error err => simp [hr] at h
      | ok r =>
        have hexp := exposesNetdev_of_listing m parentPath p r hc hr
        have hvisit : visit m parentPath p =
            Request.list (parentPath ++ "/" ++ p.Name) ::
              (if isNetdev r = true then propertyGets (parentPath ++ "/" ++ p.Name) r else []) := by
          have hr1 : m.qmpQomList (childPath parentPath p) = .ok r := hr
          simp only [visit, isChild, hc, if_true, hexp, subtreeGets, hr1]
          rfl
        simp only [hr] at h ⊢
        split_ifs at h ⊢ with hn
        · cases hf : (fetchProps m (parentPath ++ "/" ++ p.Name) r
              ⟨parentPath ++ "/" ++ p.Name, "", "", ""⟩).2 with
          | error e => simp [hf] at h
          | ok device =>
            simp only [hf] at h ⊢
            rw [ih _ h, fetchProps_requests_ok m _ r _ device hf, hvisit, if_pos hn]
            simp
        · simp only [] at h ⊢
          rw [ih _ h, hvisit, if_neg hn]
          simp
    · rw [ih _ h]
      simp [visit, isChild, hc]

/-- The requests of a run without error, in order. -/
theorem getNetDevicesRequests_ok (m : Monitor) (L1 L2 : List qomListReturn)
    (hok : (getNetDevices m).2 = none)
    (h1 : m.qmpQomList "/machine/peripheral" = .ok L1)
    (h2 : m.qmpQomList "/machine/peripheral-anon" = .ok L2) :
    getNetDevicesRequests m =
      Request.list "/machine/peripheral" :: L1.flatMap (visit m "/machine/peripheral") ++
        Request.list "/machine/peripheral-anon" ::
          L2.flatMap (visit m "/machine/peripheral-anon") := by
  unfold getNetDevices at hok
  unfold getNetDevicesRequests
  simp only [rootPaths, scanRoots, h1] at hok ⊢
  cases hc1 : (scanChildren m "/machine/peripheral" L1 []).2 with
  | error e => simp [hc1] at hok
  | ok d1 =>
    simp only [hc1, h2] at hok ⊢
    cases hc2 : (scanChildren m "/machine/peripheral-anon" L2 d1).2 with
    | error e => simp [hc2] at hok
    | ok d2 =>
      simp only [hc2]
      rw [scanChildren_requests_ok m _ L1 [] d1 hc1, scanChildren_requests_ok m _ L2 d1 d2 hc2]
      simp

theorem propertyGets_filter_isList (path : String) (r : List qomListReturn) :
    (propertyGets path r).filter Request.isList = [] := by
  simp only [propertyGets, List.filter_eq_nil_iff, List.mem_map]
  rintro q ⟨d, _, rfl⟩
  simp [Request.isList]

theorem propertyGets_filter_not_isList (path : String) (r : List qomListReturn) :
    (propertyGets path r).filter (fun q => !q.isList) = propertyGets path r := by
  simp only [propertyGets, List.filter_eq_self, List.mem_map]
  rintro q ⟨d, _, rfl⟩
  simp [Request.isList]

theorem subtreeGets_filter_isList (m : Monitor) (parentPath : String) (p : qomListReturn) :
    (subtreeGets m parentPath p).filter Request.isList = [] := by
  unfold subtreeGets
  cases m.qmpQomList (childPath parentPath p) with
  | error e => rfl
  | ok r => exact propertyGets_filter_isList _ r

theorem subtreeGets_filter_not_isList (m : Monitor) (parentPath : String)
    (p : qomListReturn) :
    (subtreeGets m parentPath p).filter (fun q => !q.isList) = subtreeGets m parentPath p := by
  unfold subtreeGets
  cases m.qmpQomList (childPath parentPath p) with
  | error e => rfl
  | ok r => exact propertyGets_filter_not_isList _ r

theorem exposesNetdev_isChild (m : Monitor) (parentPath : String) (p : qomListReturn)
    (h : exposesNetdev m parentPath p = true) : isChild p = true := by
  simp only [exposesNetdev, Bool.and_eq_true] at h
  exact h.1

theorem visit_filter_isList (m : Monitor) (parentPath : String) (L : List qomListReturn) :
    (L.flatMap (visit m parentPath)).filter Request.isList =
      (L.filter isChild).map (fun p => Request.list (childPath parentPath p)) := by
  induction L with
  | nil => rfl
  | cons p ps ih =>
    rw [List.flatMap_cons, List.filter_append, ih]
    by_cases hc : isChild p = true
    · rw [List.filter_cons_of_pos hc, List.map_cons]
      simp only [visit, hc, if_true, List.filter_cons, Request.isList, List.cons_append]
      by_cases he : exposesNetdev m parentPath p = true
      · simp only [he, if_true, subtreeGets_filter_isList, List.nil_append]
      · simp only [he, if_false, List.filter_nil, List.nil_append]
        rfl
    · rw [List.filter_cons_of_neg hc]
      simp only [visit, hc, if_false, List.filter_nil, List.nil_append]
      rfl

theorem visit_filter_not_isList (m : Monitor) (parentPath : String)
    (L : List qomListReturn) :
    (L.flatMap (visit m parentPath)).filter (fun q => !q.isList) =
      (L.filter (exposesNetdev m parentPath)).flatMap (subtreeGets m parentPath) := by
  induction L with
  | nil => rfl
  | cons p ps ih =>
    rw [List.flatMap_cons, List.filter_append, ih]
    by_cases he : exposesNetdev m parentPath p = true
    · have hc := exposesNetdev_isChild m parentPath p he
      rw [List.filter_cons_of_pos he, List.flatMap_cons]
      simp only [visit, hc, he, if_true]
      rw [List.filter_cons_of_neg (by simp [Request.isList]), subtreeGets_filter_not_isList]
    · rw [List.filter_cons_of_neg he]
      by_cases hc : isChild p = true
      · simp [visit, hc, he, Request.isList]
      · simp [visit, hc]

/-- C13. On a run without error, with `L1` and `L2` the listings of
`/machine/peripheral` and `/machine/peripheral-anon`, the `qom-list` requests
sent are, in order: the first root, the path `parentPath/childName` of each
entry of `L1` whose type begins with `child<`, the second root, and the same
for `L2`; no other path is listed. Each returned device has the path
`parentPath/childName` of such an entry. -/
theorem getNetDevices_two_level_walk (m : Monitor) (L1 L2 : List qomListReturn)
    (hok : (getNetDevices m).2 = none)
    (h1 : m.qmpQomList "/machine/peripheral" = .ok L1)
    (h2 : m.qmpQomList "/machine/peripheral-anon" = .ok L2) :
    (getNetDevicesRequests m).filter Request.isList =
        Request.list "/machine/peripheral" ::
          (L1.filter isChild).map (fun p => Request.list (childPath "/machine/peripheral" p)) ++
        Request.list "/machine/peripheral-anon" ::
          (L2.filter isChild).map
            (fun p => Request.list (childPath "/machine/peripheral-anon" p)) ∧
      ∀ d ∈ (getNetDevices m).1,
        (∃ p ∈ L1, isChild p = true ∧ d.Path = childPath "/machine/peripheral" p) ∨
        (∃ p ∈ L2, isChild p = true ∧ d.Path = childPath "/machine/peripheral-anon" p) := by
  constructor
  · rw [getNetDevicesRequests_ok m L1 L2 hok h1 h2]
    simp only [List.filter_cons, List.filter_append, Request.isList, if_true,
      visit_filter_isList, List.cons_append]
  · intro d hd
    obtain ⟨K1, K2, new1, new2, k1, k2, hdev, hall1, hall2⟩ := getNetDevices_ok m hok
    rw [h1] at k1
    rw [h2] at k2
    cases k1
    cases k2
    rw [hdev, List.mem_append] at hd
    rcases hd with hd | hd
    · obtain ⟨p, hp, hdisc⟩ := forall₂_mem_right _ _ _ hall1 d hd
      obtain ⟨hpL, hpe⟩ := List.mem_filter.mp hp
      exact Or.inl ⟨p, hpL, exposesNetdev_isChild m _ p hpe, hdisc.1⟩
    · obtain ⟨p, hp, hdisc⟩ := forall₂_mem_right _ _ _ hall2 d hd
      obtain ⟨hpL, hpe⟩ := List.mem_filter.mp hp
      exact Or.inr ⟨p, hpL, exposesNetdev_isChild m _ p hpe, hdisc.1⟩

/-- Witness of C13: on the sample guest the listings requested are the two
roots, `net0`, `disk0` and `device[0]`; the plain property `type` of the roots
is not listed, and nothing below the children is. -/
theorem getNetDevices_two_level_walk_witness :
    (getNetDevicesRequests sampleMonitor).filter Request.isList =
      [Request.list "/machine/peripheral", Request.list "/machine/peripheral/net0",
        Request.list "/machine/peripheral/disk0", Request.list "/machine/peripheral-anon",
        Request.list "/machine/peripheral-anon/device[0]"] := by
  have h := (getNetDevices_two_level_walk sampleMonitor
    [⟨"type", "string"⟩, ⟨"net0", "child<virtio-net-pci>"⟩, ⟨"disk0", "child<virtio-blk-pci>"⟩]
    [⟨"type", "string"⟩, ⟨"device[0]", "child<e1000>"⟩]
    (by decide) rfl rfl).1
  rw [h]
  decide

theorem propertyGets_count (path : String) (r : List qomListReturn) (k : String) :
    (propertyGets path r).count (Request.get path k) =
      if k = "type" ∨ k = "netdev" ∨ k = "mac" then (names r).count k else 0 := by
  induction r with
  | nil => simp [propertyGets, names]
  | cons d ds ih =>
    have hstep : propertyGets path (d :: ds) =
        (if wanted d = true then [Request.get path d.Name] else []) ++ propertyGets path ds := by
      simp only [propertyGets, List.filter_cons]
      split_ifs <;> rfl
    rw [hstep, List.count_append, ih]
    simp only [names, List.map_cons, List.count_cons]
    by_cases hk : d.Name = k
    · subst hk
      by_cases hw : wanted d = true
      · have hw2 : d.Name = "type" ∨ d.Name = "netdev" ∨ d.Name = "mac" := by
          simpa only [wanted, decide_eq_true_eq] using hw
        simp [hw, hw2]
        omega
      · have hw2 : ¬ (d.Name = "type" ∨ d.Name = "netdev" ∨ d.Name = "mac") := by
          simpa only [wanted, decide_eq_true_eq] using hw
        simp [hw, hw2]
    · have hne : ¬ (Request.get path d.Name = Request.get path k) := by
        intro h
        injection h with _ h2
        exact hk h2
      by_cases hw : wanted d = true
      · simp [hw, hk, hne, List.count_cons]
      · simp [hw, hk]

theorem fetchProps_mem (m : Monitor) (path : String) (r : List qomListReturn)
    (device : netDevice) (q : Request) (hq : q ∈ (fetchProps m path r device).1) :
    ∃ d ∈ r, wanted d = true ∧ q = Request.get path d.Name := by
  induction r generalizing device with
  | nil => simp [fetchProps] at hq
  | cons e es ih =>
    unfold fetchProps at hq
    split_ifs at hq with hskip
    · obtain ⟨d, hd, hrest⟩ := ih device hq
      exact ⟨d, List.mem_cons_of_mem _ hd, hrest⟩
    · have hw : wanted e = true := by
        simp only [wanted, decide_eq_true_eq]
        by_contra hc
        exact hskip (by simpa only [not_or] using hc)
      cases hg : m.qmpQomGet path e.Name with
      | error err =>
        simp only [hg, List.mem_singleton] at hq
        exact ⟨e, List.mem_cons_self _ _, hw, hq⟩
      | ok value =>
        simp only [hg, List.mem_cons] at hq
        rcases hq with hq | hq
        · exact ⟨e, List.mem_cons_self _ _, hw, hq⟩
        · obtain ⟨d, hd, hrest⟩ := ih _ hq
          exact ⟨d, List.mem_cons_of_mem _ hd, hrest⟩

theorem scanChildren_mem_get (m : Monitor) (parentPath : String) (ps : List qomListReturn)
    (devices : List netDevice) (path k : String)
    (hq : Request.get path k ∈ (scanChildren m parentPath ps devices).1) :
    ∃ p ∈ ps, exposesNetdev m parentPath p = true ∧ path = childPath parentPath p ∧
      ∃ r, m.qmpQomList path = .ok r ∧ k ∈ names r ∧
        (k = "type" ∨ k = "netdev" ∨ k = "mac") := by
  induction ps generalizing devices with
  | nil => simp [scanChildren] at hq
  | cons p ps ih =>
    have hlater : (∃ p1 ∈ ps, exposesNetdev m parentPath p1 = true ∧
        path = childPath parentPath p1 ∧
        ∃ r, m.qmpQomList path = .ok r ∧ k ∈ names r ∧
          (k = "type" ∨ k = "netdev" ∨ k = "mac")) →
        ∃ p1 ∈ p :: ps, exposesNetdev m parentPath p1 = true ∧
          path = childPath parentPath p1 ∧
          ∃ r, m.qmpQomList path = .ok r ∧ k ∈ names r ∧
            (k = "type" ∨ k = "netdev" ∨ k = "mac") := by
      rintro ⟨p1, hp1, hrest⟩
      exact ⟨p1, List.mem_cons_of_mem _ hp1, hrest⟩
    unfold scanChildren at hq
    split_ifs at hq with hc
    · cases hr : m.qmpQomList (parentPath ++ "/" ++ p.Name) with
      | error err => simp [hr] at hq
      | ok r =>
        have hexp := exposesNetdev_of_listing m parentPath p r hc hr
        have hhere : Request.get path k ∈ (fetchProps m (parentPath ++ "/" ++ p.Name) r
            ⟨parentPath ++ "/" ++ p.Name, "", "", ""⟩).1 → isNetdev r = true →
            ∃ p1 ∈ p :: ps, exposesNetdev m parentPath p1 = true ∧
              path = childPath parentPath p1 ∧
              ∃ r, m.qmpQomList path = .ok r ∧ k ∈ names r ∧
                (k = "type" ∨ k = "netdev" ∨ k = "mac") := by
          intro hmem hn
          obtain ⟨d, hd, hw, hqd⟩ := fetchProps_mem m _ r _ _ hmem
          injection hqd with hpath hname
          refine ⟨p, List.mem_cons_self _ _, by rw [hexp, hn], hpath, r, by rw [hpath]; exact hr,
            ?_, ?_⟩
          · rw [hname]
            exact List.mem_map.mpr ⟨d, hd, rfl⟩
          · rw [hname]
            simpa only [wanted, decide_eq_true_eq] using hw
        simp only [hr] at hq
        split_ifs at hq with hn
        · cases hf : (fetchProps m (parentPath ++ "/" ++ p.Name) r
              ⟨parentPath ++ "/" ++ p.Name, "", "", ""⟩).2 with
          | error e =>
            simp only [hf, List.mem_cons] at hq
            rcases hq with hq | hq
            · cases hq
            · exact hhere hq hn
          | ok device =>
            simp only [hf, List.mem_cons, List.mem_append] at hq
            rcases hq with hq | hq | hq
            · cases hq
            · exact hhere hq hn
            · exact hlater (ih _ hq)
        · simp only [List.mem_cons] at hq
          rcases hq with hq | hq
          · cases hq
          · exact hlater (ih _ hq)
    · exact hlater (ih _ hq)

theorem getNetDevicesRequests_mem_get (m : Monitor) (path k : String)
    (hq : Request.get path k ∈ getNetDevicesRequests m) :
    ∃ parentPath ∈ rootPaths, ∃ L, m.qmpQomList parentPath = .ok L ∧
      ∃ p ∈ L, exposesNetdev m parentPath p = true ∧ path = childPath parentPath p ∧
        ∃ r, m.qmpQomList path = .ok r ∧ k ∈ names r ∧
          (k = "type" ∨ k = "netdev" ∨ k = "mac") := by
  unfold getNetDevicesRequests at hq
  simp only [rootPaths, scanRoots] at hq
  cases h1 : m.qmpQomList "/machine/peripheral" with
  | error err => simp [h1] at hq
  | ok L1 =>
    simp only [h1] at hq
    have hfirst : Request.get path k ∈ (scanChildren m "/machine/peripheral" L1 []).1 →
        ∃ parentPath ∈ rootPaths, ∃ L, m.qmpQomList parentPath = .ok L ∧
          ∃ p ∈ L, exposesNetdev m parentPath p = true ∧ path = childPath parentPath p ∧
            ∃ r, m.qmpQomList path = .ok r ∧ k ∈ names r ∧
              (k = "type" ∨ k = "netdev" ∨ k = "mac") := fun hmem =>
      ⟨"/machine/peripheral", by simp [rootPaths], L1, h1,
        scanChildren_mem_get m _ L1 [] path k hmem⟩
    cases hc1 : (scanChildren m "/machine/peripheral" L1 []).2 with
    | error e =>
      simp only [hc1, List.mem_cons] at hq
      rcases hq with hq | hq
      · cases hq
      · exact hfirst hq
    | ok d1 =>
      simp only [hc1] at hq
      cases h2 : m.qmpQomList "/machine/peripheral-anon" with
      | error err =>
        simp only [h2, List.mem_cons, List.mem_append, List.not_mem_nil, or_false] at hq
        rcases hq with hq | hq | hq
        · cases hq
        · exact hfirst hq
        · cases hq
      | ok L2 =>
        simp only [h2] at hq
        have hsecond : Request.get path k ∈
            (scanChildren m "/machine/peripheral-anon" L2 d1).1 →
            ∃ parentPath ∈ rootPaths, ∃ L, m.qmpQomList parentPath = .ok L ∧
              ∃ p ∈ L, exposesNetdev m parentPath p = true ∧ path = childPath parentPath p ∧
                ∃ r, m.qmpQomList path = .ok r ∧ k ∈ names r ∧
                  (k = "type" ∨ k = "netdev" ∨ k = "mac") := fun hmem =>
          ⟨"/machine/peripheral-anon", by simp [rootPaths], L2, h2,
            scanChildren_mem_get m _ L2 d1 path k hmem⟩
        cases hc2 : (scanChildren m "/machine/peripheral-anon" L2 d1).2 with
        | error e =>
          simp only [hc2, List.mem_cons, List.mem_append] at hq
          rcases hq with hq | hq | hq | hq
          · cases hq
          · exact hfirst hq
          · cases hq
          · exact hsecond hq
        | ok d2 =>
          simp only [hc2, List.mem_cons, List.mem_append, List.not_mem_nil, or_false] at hq
          rcases hq with hq | hq | hq | hq
          · cases hq
          · exact hfirst hq
          · cases hq
          · exact hsecond hq

/-- Counterexample to C12 as stated: the subtree `/machine/peripheral/nic0` is
classified as a network device and a device is returned for it, yet only two
`qom-get` requests are sent for it, for `type` and `netdev`: its listing has no
entry named `mac`, so none is sent for `mac`. -/
theorem getNetDevices_two_gets_for_classified_subtree :
    getNetDevices noMacMonitor =
      ([⟨"/machine/peripheral/nic0", "hostnet0", "usb-net", ""⟩], none) ∧
    getNetDevicesRequests noMacMonitor =
      [Request.list "/machine/peripheral", Request.list "/machine/peripheral/nic0",
        Request.get "/machine/peripheral/nic0" "type",
        Request.get "/machine/peripheral/nic0" "netdev",
        Request.list "/machine/peripheral-anon"] :=
  ⟨by decide, by decide⟩

/-- C12, amended. On a run without error, with `L1` and `L2` the listings of the
two roots, the `qom-get` requests sent are, in order, those of `propertyGets`
for the own listing of each entry that exposes `netdev`: one get per entry of
that listing named `type`, `netdev` or `mac`, so as many gets for one of these
names as the listing has entries of that name, and none for any other name. On
every run a `qom-get` is sent only at the path of a root-listing entry that
exposes `netdev`, for a name among `type`, `netdev` and `mac` that the own
listing of that path contains. -/
theorem getNetDevices_gets_follow_listing (m : Monitor) (L1 L2 : List qomListReturn) :
    ((getNetDevices m).2 = none → m.qmpQomList "/machine/peripheral" = .ok L1 →
      m.qmpQomList "/machine/peripheral-anon" = .ok L2 →
      (getNetDevicesRequests m).filter (fun q => !q.isList) =
        (L1.filter (exposesNetdev m "/machine/peripheral")).flatMap
            (subtreeGets m "/machine/peripheral") ++
          (L2.filter (exposesNetdev m "/machine/peripheral-anon")).flatMap
            (subtreeGets m "/machine/peripheral-anon")) ∧
    (∀ (path : String) (r : List qomListReturn) (k : String),
      (propertyGets path r).count (Request.get path k) =
        if k = "type" ∨ k = "netdev" ∨ k = "mac" then (names r).count k else 0) ∧
    (∀ path k, Request.get path k ∈ getNetDevicesRequests m →
      ∃ parentPath ∈ rootPaths, ∃ L, m.qmpQomList parentPath = .ok L ∧
        ∃ p ∈ L, exposesNetdev m parentPath p = true ∧ path = childPath parentPath p ∧
          ∃ r, m.qmpQomList path = .ok r ∧ k ∈ names r ∧
            (k = "type" ∨ k = "netdev" ∨ k = "mac")) := by
  refine ⟨?_, propertyGets_count, getNetDevicesRequests_mem_get m⟩
  intro hok h1 h2
  rw [getNetDevicesRequests_ok m L1 L2 hok h1 h2]
  rw [List.filter_append, List.filter_cons_of_neg (by simp [Request.isList]),
    List.filter_cons_of_neg (by simp [Request.isList]), visit_filter_not_isList,
    visit_filter_not_isList]

/-- Witness of the amended C12: on the sample guest three gets are sent for
`net0` and three for `device[0]`, each in the order of the device's listing,
and none for `disk0`. -/
theorem getNetDevices_gets_follow_listing_witness :
    (getNetDevicesRequests sampleMonitor).filter (fun q => !q.isList) =
      [Request.get "/machine/peripheral/net0" "type",
        Request.get "/machine/peripheral/net0" "netdev",
        Request.get "/machine/peripheral/net0" "mac",
        Request.get "/machine/peripheral-anon/device[0]" "mac",
        Request.get "/machine/peripheral-anon/device[0]" "type",
        Request.get "/machine/peripheral-anon/device[0]" "netdev"] := by
  have h := (getNetDevices_gets_follow_listing sampleMonitor
    [⟨"type", "string"⟩, ⟨"net0", "child<virtio-net-pci>"⟩, ⟨"disk0", "child<virtio-blk-pci>"⟩]
    [⟨"type", "string"⟩, ⟨"device[0]", "child<e1000>"⟩]).1 (by decide) rfl rfl
  rw [h]
  decide

theorem matchEntry_no_panic (mac : String) (fields : List String)
    (hlen : HWAddressIndex < fields.length) :
    matchEntry mac fields = none ∨
      ∃ ip err, matchEntry mac fields = some (.ret ip err) ∧ (err ≠ none → ip = "") := by
  have h3 : 3 < fields.length := hlen
  unfold matchEntry
  simp only [HWAddressIndex, FlagsIndex, IPAddressIndex, List.getElem?_eq_getElem h3,
    List.getElem?_eq_getElem (show 2 < fields.length by omega),
    List.getElem?_eq_getElem (show 0 < fields.length by omega)]
  by_cases hhw : fields[3] = mac
  · simp only [hhw, ne_eq, not_true_eq_false, if_false]
    cases hp : ParseInt fields[2] 0 32 with
    | error e => exact Or.inr ⟨"", _, rfl, fun _ => rfl⟩
    | ok flags =>
      simp only []
      split_ifs
      · exact Or.inr ⟨fields[0], none, rfl, fun h => absurd rfl h⟩
      · exact Or.inl rfl
  · simp [hhw]

theorem scanLoop_no_panic (mac : String) (data : List String)
    (hlen : ∀ x ∈ data, HWAddressIndex < (Fields x).length) :
    ∃ ip err, scanLoop "" mac data = .ret ip err ∧ (err ≠ none → ip = "") := by
  induction data with
  | nil => exact ⟨"", _, rfl, fun _ => rfl⟩
  | cons x xs ih =>
    have hbody : loopBody "" mac x = matchEntry mac (Fields x) := by
      simp [loopBody]
    unfold scanLoop
    rw [hbody]
    rcases matchEntry_no_panic mac (Fields x) (hlen x (List.mem_cons_self _ _)) with h | h
    · simp only [h]
      exact ih (fun y hy => hlen y (List.mem_cons_of_mem _ hy))
    · obtain ⟨ip, err, h, hempty⟩ := h
      simp only [h]
      exact ⟨ip, err, rfl, hempty⟩

theorem getIPAddress_no_panic (arp : Except String (List String)) (mac : String)
    (htable : ∀ lines, arp = .ok lines →
      ∀ x ∈ lines.drop 1, HWAddressIndex < (Fields x).length) :
    ∃ ip err, getIPAddress arp "" mac = .ret ip err ∧ (err ≠ none → ip = "") := by
  cases arp with
  | error msg => exact ⟨"", _, rfl, fun _ => rfl⟩
  | ok lines => exact scanLoop_no_panic mac _ (htable lines rfl)

theorem reportLoop_rows (arp : Except String (List String))
    (htable : ∀ lines, arp = .ok lines →
      ∀ x ∈ lines.drop 1, HWAddressIndex < (Fields x).length)
    (devices : List netDevice) (out : String) :
    reportLoop arp devices out =
      .done (out ++ concatAll (devices.map (fun d =>
        Write [d.Name, d.Type_, d.MacAddress, ipColumn arp d.MacAddress, d.Path]))) := by
  induction devices generalizing out with
  | nil => simp [reportLoop, concatAll]
  | cons d ds ih =>
    obtain ⟨ip, err, hip, _⟩ := getIPAddress_no_panic arp d.MacAddress htable
    unfold reportLoop
    simp only [hip, ih, List.map_cons, concatAll, ipColumn, String.append_assoc]

/-- Counterexample to C11 as stated: discovery returns the device `net0`, the
neighbor table has a blank line after its header, and `main` ends in the
run-time panic of `fields[3]` inside `getIPAddress` instead of writing the row
of `net0`. -/
theorem main_panics_on_blank_line :
    getNetDevices net0Monitor =
      ([⟨"/machine/peripheral/net0", "net0", "virtio-net-pci", "52:54:00:12:34:56"⟩], none) ∧
    main "~/vm/qmp.socket" net0Monitor
      (.ok ["IP address HW type Flags HW address Mask Device", ""]) = .panic 3 0 :=
  ⟨by decide, by decide⟩

/-- C11, amended. When `getNetDevices` returns `devices` without error and
every line of the neighbor table after the first has a hardware-address field
(six fields in particular), `main` ends normally and its output is the record
`Name,Type,MacAddress,IpAddress,Path` followed by one record per device, in the
order of `devices`, with the fields `Name`, `Type`, `MacAddress`, the string
`getIPAddress` returned for the MAC under the empty filter, and `Path`; that
string is empty whenever `getIPAddress` returned an error, and the records of
the other devices are written all the same. -/
theorem main_report (qmpPath : String) (m : Monitor) (arp : Except String (List String))
    (devices : List netDevice) (hdev : getNetDevices m = (devices, none))
    (htable : ∀ lines, arp = .ok lines →
      ∀ x ∈ lines.drop 1, HWAddressIndex < (Fields x).length) :
    main qmpPath m arp =
        .done (Write ["Name", "Type", "MacAddress", "IpAddress", "Path"] ++
          concatAll (devices.map (fun d =>
            Write [d.Name, d.Type_, d.MacAddress, ipColumn arp d.MacAddress, d.Path]))) ∧
      Write ["Name", "Type", "MacAddress", "IpAddress", "Path"] =
        "Name,Type,MacAddress,IpAddress,Path" ++ newline ∧
      ∀ d ∈ devices, ∃ ip err, getIPAddress arp "" d.MacAddress = .ret ip err ∧
        ipColumn arp d.MacAddress = ip ∧ (err ≠ none → ip = "") := by
  refine ⟨?_, by decide, ?_⟩
  · unfold main
    rw [hdev]
    exact reportLoop_rows arp htable devices _
  · intro d _
    obtain ⟨ip, err, hip, hempty⟩ := getIPAddress_no_panic arp d.MacAddress htable
    exact ⟨ip, err, hip, by simp only [ipColumn, hip], hempty⟩

/-- Witness of the amended C11: the guest with the single device `net0` and the one-line
table give the header and the single data row of the end-to-end scenario; on
the sample guest the second device has no entry in the table, its IP-address
field is empty and both rows are written. -/
theorem main_report_witness :
    main "~/vm/qmp.socket" net0Monitor
        (.ok ["IP address HW type Flags HW address Mask Device",
          "192.168.121.111 0x1 0x2 52:54:00:12:34:56 * virbr0"]) =
      .done ("Name,Type,MacAddress,IpAddress,Path" ++ newline ++
        "net0,virtio-net-pci,52:54:00:12:34:56,192.168.121.111,/machine/peripheral/net0" ++
        newline) ∧
    main "~/vm/qmp.socket" sampleMonitor
        (.ok ["IP address HW type Flags HW address Mask Device",
          "192.168.121.111 0x1 0x2 52:54:00:12:34:56 * virbr0"]) =
      .done ("Name,Type,MacAddress,IpAddress,Path" ++ newline ++
        "net0,virtio-net-pci,52:54:00:12:34:56,192.168.121.111,/machine/peripheral/net0" ++
        newline ++
        "hostnet1,e1000,52:54:00:ab:cd:ef,,/machine/peripheral-anon/device[0]" ++ newline) := by
  have htable : ∀ lines, (Except.ok ["IP address HW type Flags HW address Mask Device",
      "192.168.121.111 0x1 0x2 52:54:00:12:34:56 * virbr0"] : Except String (List String)) =
        .ok lines → ∀ x ∈ lines.drop 1, HWAddressIndex < (Fields x).length := by
    intro lines hl x hx
    cases hl
    simp only [List.drop_succ_cons, List.drop_zero, List.mem_singleton] at hx
    subst hx
    decide
  have h1 := (main_report "~/vm/qmp.socket" net0Monitor
    (.ok ["IP address HW type Flags HW address Mask Device",
      "192.168.121.111 0x1 0x2 52:54:00:12:34:56 * virbr0"])
    [⟨"/machine/peripheral/net0", "net0", "virtio-net-pci", "52:54:00:12:34:56"⟩]
    (by decide) htable).1
  have h2 := (main_report "~/vm/qmp.socket" sampleMonitor
    (.ok ["IP address HW type Flags HW address Mask Device",
      "192.168.121.111 0x1 0x2 52:54:00:12:34:56 * virbr0"])
    [⟨"/machine/peripheral/net0", "net0", "virtio-net-pci", "52:54:00:12:34:56"⟩,
      ⟨"/machine/peripheral-anon/device[0]", "hostnet1", "e1000", "52:54:00:ab:cd:ef"⟩]
    (by decide) htable).1
  rw [h1, h2]
  exact ⟨by decide, by rfl⟩

theorem digitVal_bounds {c : Char} {d : Nat} (h : digitVal c = some d) :
    (48 ≤ c.toNat ∧ c.toNat ≤ 57 ∧ d = c.toNat - 48) ∨
    (97 ≤ c.toNat ∧ c.toNat ≤ 102 ∧ d = c.toNat - 87) ∨
    (65 ≤ c.toNat ∧ c.toNat ≤ 70 ∧ d = c.toNat - 55) := by
  unfold digitVal at h
  simp only [] at h
  split_ifs at h with h1 h2 h3
  · exact Or.inl ⟨h1.1, h1.2, (Option.some.inj h).symm⟩
  · exact Or.inr (Or.inl ⟨h2.1, h2.2, (Option.some.inj h).symm⟩)
  · exact Or.inr (Or.inr ⟨h3.1, h3.2, (Option.some.inj h).symm⟩)

theorem parseDigits_step (base cutoff maxVal : Nat) (c : Char) (cs : List Char) (d acc : Nat)
    (u : Bool) (hd : digitVal c = some d) (hbase : d < base) (hcut : acc < cutoff)
    (hmax : acc * base + d ≤ maxVal) (h64 : acc * base + d < 2 ^ 64) :
    parseDigits base true cutoff maxVal (c :: cs) acc u =
      parseDigits base true cutoff maxVal cs (acc * base + d) u := by
  have hb := digitVal_bounds hd
  have hmod : ∀ k, k < 2 ^ 64 → k % 2 ^ 64 = k := fun k hk => Nat.mod_eq_of_lt hk
  have h0 : acc * base < 2 ^ 64 := by omega
  rw [parseDigits]
  generalize hn : c.toNat = n at hb
  simp only []
  rcases hb with ⟨l, r, hv⟩ | ⟨l, r, hv⟩ | ⟨l, r, hv⟩
  · have h95 : (n == 95) = false := by simp; omega
    have hdig : (decide (48 ≤ n) && decide (n ≤ 57)) = true := by simp; omega
    simp only [h95, Bool.false_and, Bool.false_eq_true, if_false, hdig, if_true, ← hv]
    simp only [ge_iff_le, Nat.not_le.mpr hbase, if_false, Nat.not_le.mpr hcut, hmod _ h0,
      hmod _ h64, Bool.or_eq_true, decide_eq_true_eq]
    rw [if_neg (by omega)]
  · have h95 : (n == 95) = false := by simp; omega
    have hdig : (decide (48 ≤ n) && decide (n ≤ 57)) = false := by simp; omega
    have hlow : lower n = n := by
      interval_cases n <;> rfl
    have hlet : (decide (97 ≤ lower n) && decide (lower n ≤ 122) && decide (n < 128)) = true := by
      rw [hlow]; simp; omega
    have hval : lower n - 97 + 10 = d := by rw [hlow]; omega
    simp only [h95, Bool.false_and, Bool.false_eq_true, if_false, hdig, hlet, if_true, hval]
    simp only [ge_iff_le, Nat.not_le.mpr hbase, if_false, Nat.not_le.mpr hcut, hmod _ h0,
      hmod _ h64, Bool.or_eq_true, decide_eq_true_eq]
    rw [if_neg (by omega)]
  · have h95 : (n == 95) = false := by simp; omega
    have hdig : (decide (48 ≤ n) && decide (n ≤ 57)) = false := by simp; omega
    have hlow : lower n = n + 32 := by
      interval_cases n <;> rfl
    have hlet : (decide (97 ≤ lower n) && decide (lower n ≤ 122) && decide (n < 128)) = true := by
      rw [hlow]; simp; omega
    have hval : lower n - 97 + 10 = d := by rw [hlow]; omega
    simp only [h95, Bool.false_and, Bool.false_eq_true, if_false, hdig, hlet, if_true, hval]
    simp only [ge_iff_le, Nat.not_le.mpr hbase, if_false, Nat.not_le.mpr hcut, hmod _ h0,
      hmod _ h64, Bool.or_eq_true, decide_eq_true_eq]
    rw [if_neg (by omega)]

theorem numeralValue_le (base : Nat) (hbase : 1 ≤ base) (cs : List Char) (acc n : Nat)
    (h : numeralValue base cs acc = some n) : acc ≤ n := by
  induction cs generalizing acc with
  | nil =>
    simp only [numeralValue, Option.some.injEq] at h
    omega
  | cons c cs ih =>
    unfold numeralValue at h
    cases hd : digitVal c with
    | none => simp [hd] at h
    | some d =>
      simp only [hd] at h
      split_ifs at h with hlt
      have h1 := ih _ h
      have h2 : acc ≤ acc * base := Nat.le_mul_of_pos_right acc hbase
      omega

theorem parseDigits_numeral (base cutoff : Nat) (hbase : 1 ≤ base)
    (hcut : 2 ^ 32 ≤ cutoff) (cs : List Char) (acc n : Nat) (u : Bool)
    (h : numeralValue base cs acc = some n) (hn : n ≤ 2 ^ 32 - 1) :
    parseDigits base true cutoff (2 ^ 32 - 1) cs acc u = .ok n u := by
  induction cs generalizing acc with
  | nil =>
    simp only [numeralValue, Option.some.injEq] at h
    rw [parseDigits, h]
  | cons c cs ih =>
    have hacc := numeralValue_le base hbase _ acc n h
    unfold numeralValue at h
    cases hd : digitVal c with
    | none => simp [hd] at h
    | some d =>
      simp only [hd] at h
      split_ifs at h with hlt
      have hnext := numeralValue_le base hbase _ _ n h
      rw [parseDigits_step base cutoff (2 ^ 32 - 1) c cs d acc u hd hlt (by omega) (by omega)
        (by omega)]
      exact ih _ h

theorem digitVal_not_sign {c : Char} {d : Nat} (h : digitVal c = some d) :
    c.toNat ≠ 43 ∧ c.toNat ≠ 45 := by
  rcases digitVal_bounds h with ⟨l, r, _⟩ | ⟨l, r, _⟩ | ⟨l, r, _⟩ <;> omega

theorem numeralValue_head {base : Nat} {c : Char} {cs : List Char} {acc n : Nat}
    (h : numeralValue base (c :: cs) acc = some n) : ∃ d, digitVal c = some d := by
  unfold numeralValue at h
  cases hd : digitVal c with
  | none => simp [hd] at h
  | some d => exact ⟨d, rfl⟩

theorem ParseUint_decimal (digits : List Char) (n : Nat) (h : IsDecimal digits n)
    (hn : n ≤ 2 ^ 32 - 1) : ParseUint digits 0 32 = .ok n := by
  obtain ⟨hne, hval, hzero⟩ := h
  cases digits with
  | nil => exact absurd rfl hne
  | cons c0 cs =>
    by_cases h48 : c0.toNat = 48
    · have hc0 : c0 = Char.ofNat 48 := by
        apply Char.ext
        apply UInt32.ext
        exact h48
      have hcs := hzero (by simp [hc0])
      simp only [List.cons.injEq] at hcs
      obtain ⟨_, hnil⟩ := hcs
      subst hnil
      subst hc0
      have hn0 : n = 0 := by
        have : numeralValue 10 [Char.ofNat 48] 0 = some 0 := by decide
        rw [this] at hval
        exact (Option.some.inj hval).symm
      subst hn0
      rfl
    · unfold ParseUint
      have hb : (c0.toNat == 48) = false := by simp [h48]
      simp only [hb, Bool.false_eq_true, if_false]
      have hp : parseDigits 10 true 1844674407370955162 4294967295 (c0 :: cs) 0 false =
          .ok n false :=
        parseDigits_numeral 10 ((2 ^ 64 - 1) / 10 + 1) (by decide) (by decide) (c0 :: cs) 0 n
          false hval hn
      simp [hp]

theorem ParseUint_hex (digits : List Char) (n : Nat) (x : Char) (h : IsHex digits n)
    (hx : x = Char.ofNat 120 ∨ x = Char.ofNat 88) (hn : n ≤ 2 ^ 32 - 1) :
    ParseUint (Char.ofNat 48 :: x :: digits) 0 32 = .ok n := by
  obtain ⟨hne, hval⟩ := h
  cases digits with
  | nil => exact absurd rfl hne
  | cons c0 cs =>
    have hp : parseDigits 16 true 1152921504606846976 4294967295 (c0 :: cs) 0 false =
        .ok n false :=
      parseDigits_numeral 16 ((2 ^ 64 - 1) / 16 + 1) (by decide) (by decide) (c0 :: cs) 0 n
        false hval hn
    rcases hx with hx | hx <;> subst hx
    · have e1 : (Char.ofNat 120).toNat = 120 := by decide
      have e2 : (Char.ofNat 48).toNat = 48 := by decide
      have e3 : lower 120 = 120 := by decide
      unfold ParseUint
      simp [e1, e2, e3, hp]
    · have e1 : (Char.ofNat 88).toNat = 88 := by decide
      have e2 : (Char.ofNat 48).toNat = 48 := by decide
      have e3 : lower 88 = 120 := by decide
      unfold ParseUint
      simp [e1, e2, e3, hp]

theorem andInt_AtfCom_iff (v : Int) : andInt v AtfCom = AtfCom ↔ (v / 2) % 2 = 1 := by
  unfold andInt AtfCom
  have h2 : ((2 : Int) % 2 ^ 64).toNat = 2 := by decide
  simp only [h2]
  generalize hx : (v % 2 ^ 64).toNat = x
  have hland : Nat.land x 2 = (x.testBit 1).toNat * 2 := by
    have := Nat.and_two_pow x 1
    simpa using this
  have htb : x.testBit 1 = decide (x / 2 % 2 = 1) := by
    have := @Nat.testBit_to_div_mod 1 x
    simpa using this
  have hxv : (x : Int) = v % 2 ^ 64 := by
    rw [← hx]
    exact Int.toNat_of_nonneg (Int.emod_nonneg _ (by decide))
  have hbit : (x / 2 % 2 = 1) ↔ (v / 2) % 2 = 1 := by
    constructor <;> intro h <;> omega
  rw [hland, htb]
  by_cases hb : x / 2 % 2 = 1
  · simp only [hb, decide_True, Bool.toNat_true, one_mul]
    have : (v / 2) % 2 = 1 := hbit.mp hb
    simp [this]
  · simp only [hb, decide_False, Bool.toNat_false, zero_mul]
    have : ¬ (v / 2) % 2 = 1 := fun h => hb (hbit.mpr h)
    simp [this]

theorem ParseInt_signed (body : List Char) (neg : Bool) (n : Nat) (c : Char) (cs : List Char)
    (hbody : body = c :: cs) (hc : c.toNat ≠ 43 ∧ c.toNat ≠ 45)
    (hu : ParseUint body 0 32 = .ok n)
    (hrange : -(2 : Int) ^ 31 ≤ (if neg then -(n : Int) else (n : Int)) ∧
      (if neg then -(n : Int) else (n : Int)) < 2 ^ 31) :
    ParseInt (String.mk ((if neg then [Char.ofNat 45] else []) ++ body)) 0 32 =
      .ok (if neg then -(n : Int) else (n : Int)) := by
  subst hbody
  have e45 : (Char.ofNat 45).toNat = 45 := by decide
  cases neg with
  | false =>
    simp only [Bool.false_eq_true, if_false, List.nil_append] at hrange ⊢
    have hn : n < 2 ^ 31 := by omega
    unfold ParseInt
    simp [hc.1, hc.2, hu]
    omega
  | true =>
    simp only [if_true, List.singleton_append] at hrange ⊢
    have hn : n ≤ 2 ^ 31 := by omega
    unfold ParseInt
    simp [e45, hu]
    omega

/-- Counterexample to C15 as stated: the flags text `010` is a decimal numeral
of value 10, in range, and 10 has the bit `0x02` set, yet `ParseInt` with base 0
reads it as the octal numeral of value 8, so the matching line is not accepted
and the query ends with the not-found error; the hexadecimal spelling `0xa` of
the same number 10 is accepted. -/
theorem getIPAddress_leading_zero_decimal_read_as_octal :
    numeralValue 10 [Char.ofNat 48, Char.ofNat 49, Char.ofNat 48] 0 = some 10 ∧
    ((10 : Int) / 2) % 2 = 1 ∧
    ParseInt "010" 0 32 = .ok 8 ∧
    getIPAddress (.ok ["IP address HW type Flags HW address Mask Device",
        "192.168.121.111 0x1 010 52:54:00:12:34:56 * virbr0"]) "" "52:54:00:12:34:56" =
      .ret "" (some (.errorf ("could not find " ++ "52:54:00:12:34:56"))) ∧
    getIPAddress (.ok ["IP address HW type Flags HW address Mask Device",
        "192.168.121.111 0x1 0xa 52:54:00:12:34:56 * virbr0"]) "" "52:54:00:12:34:56" =
      .ret "192.168.121.111" none :=
  ⟨by decide, by decide, by rfl, by decide, by decide⟩

/-- C15, amended. Let the flags field of a six-field line that passes the device
filter and carries the MAC be a decimal numeral without leading zero, or a
hexadecimal numeral after `0x` or `0X`, possibly after a minus sign, of value
`v` in the signed 32-bit range. Then `ParseInt` yields `v`, and the line is
accepted, its IP address being returned, exactly when bit `0x02` of `v` is set,
that is when `v / 2` is odd; otherwise the scan goes on. The other bits and the
spelling play no part. -/
theorem getIPAddress_complete_bit (device mac line ip t fl mask dev : String)
    (neg upper : Bool) (digits : List Char) (n : Nat)
    (hl : Fields line = [ip, t, fl, mac, mask, dev]) (hdev : device = "" ∨ dev = device)
    (htext : (fl = decimalText neg digits ∧ IsDecimal digits n) ∨
      (fl = hexText neg upper digits ∧ IsHex digits n))
    (hrange : -(2 : Int) ^ 31 ≤ (if neg then -(n : Int) else (n : Int)) ∧
      (if neg then -(n : Int) else (n : Int)) < 2 ^ 31) :
    ParseInt fl 0 32 = .ok (if neg then -(n : Int) else (n : Int)) ∧
      loopBody device mac line =
        if ((if neg then -(n : Int) else (n : Int)) / 2) % 2 = 1 then some (.ret ip none)
        else none := by
  have hn : n ≤ 2 ^ 32 - 1 := by
    cases neg <;> simp only [Bool.false_eq_true, if_false, if_true] at hrange <;> omega
  have hparse : ParseInt fl 0 32 = .ok (if neg then -(n : Int) else (n : Int)) := by
    rcases htext with ⟨hfl, hdec⟩ | ⟨hfl, hhex⟩
    · obtain ⟨c, cs, hcs⟩ : ∃ c cs, digits = c :: cs := by
        cases digits with
        | nil => exact absurd rfl hdec.1
        | cons c cs => exact ⟨c, cs, rfl⟩
      obtain ⟨d, hd⟩ := numeralValue_head (hcs ▸ hdec.2.1)
      rw [hfl]
      exact ParseInt_signed digits neg n c cs hcs (digitVal_not_sign hd)
        (ParseUint_decimal digits n hdec hn) hrange
    · rw [hfl]
      refine ParseInt_signed _ neg n (Char.ofNat 48) _ rfl (by decide) ?_ hrange
      refine ParseUint_hex digits n _ hhex ?_ hn
      cases upper
      · exact Or.inl rfl
      · exact Or.inr rfl
  refine ⟨hparse, ?_⟩
  rw [loopBody_six hl]
  have h1 : ¬ (device ≠ "" ∧ dev ≠ device) := by
    rintro ⟨hd, hne⟩
    rcases hdev with h | h
    · exact hd h
    · exact hne h
  rw [if_neg h1, hparse]
  simp only [ne_eq, not_true_eq_false, if_false, andInt_AtfCom_iff]

/-- Witness of the amended C15: on a line for the MAC the flags texts `2`,
`0x2`, `0x6` and `0x02` are accepted, the texts `0x0`, `0x4` and `1` are not. -/
theorem getIPAddress_complete_bit_witness :
    loopBody "" "52:54:00:12:34:56" "192.168.121.111 0x1 2 52:54:00:12:34:56 * virbr0"
      = some (.ret "192.168.121.111" none) ∧
    loopBody "" "52:54:00:12:34:56" "192.168.121.111 0x1 0x2 52:54:00:12:34:56 * virbr0"
      = some (.ret "192.168.121.111" none) ∧
    loopBody "" "52:54:00:12:34:56" "192.168.121.111 0x1 0x6 52:54:00:12:34:56 * virbr0"
      = some (.ret "192.168.121.111" none) ∧
    loopBody "" "52:54:00:12:34:56" "192.168.121.111 0x1 0x02 52:54:00:12:34:56 * virbr0"
      = some (.ret "192.168.121.111" none) ∧
    loopBody "" "52:54:00:12:34:56" "192.168.121.111 0x1 0x0 52:54:00:12:34:56 * virbr0"
      = none ∧
    loopBody "" "52:54:00:12:34:56" "192.168.121.111 0x1 0x4 52:54:00:12:34:56 * virbr0"
      = none ∧
    loopBody "" "52:54:00:12:34:56" "192.168.121.111 0x1 1 52:54:00:12:34:56 * virbr0"
      = none :=
  ⟨(getIPAddress_complete_bit "" "52:54:00:12:34:56"
      "192.168.121.111 0x1 2 52:54:00:12:34:56 * virbr0"
      "192.168.121.111" "0x1" "2" "*" "virbr0" false false [Char.ofNat 50] 2
      (by decide) (Or.inl rfl)
      (Or.inl ⟨by decide, by decide, by decide, by decide⟩) (by decide)).2.trans (by decide),
    (getIPAddress_complete_bit "" "52:54:00:12:34:56"
      "192.168.121.111 0x1 0x2 52:54:00:12:34:56 * virbr0"
      "192.168.121.111" "0x1" "0x2" "*" "virbr0" false false [Char.ofNat 50] 2
      (by decide) (Or.inl rfl)
      (Or.inr ⟨by decide, by decide, by decide⟩) (by decide)).2.trans (by decide),
    (getIPAddress_complete_bit "" "52:54:00:12:34:56"
      "192.168.121.111 0x1 0x6 52:54:00:12:34:56 * virbr0"
      "192.168.121.111" "0x1" "0x6" "*" "virbr0" false false [Char.ofNat 54] 6
      (by decide) (Or.inl rfl)
      (Or.inr ⟨by decide, by decide, by decide⟩) (by decide)).2.trans (by decide),
    (getIPAddress_complete_bit "" "52:54:00:12:34:56"
      "192.168.121.111 0x1 0x02 52:54:00:12:34:56 * virbr0"
      "192.168.121.111" "0x1" "0x02" "*" "virbr0" false false [Char.ofNat 48, Char.ofNat 50] 2
      (by decide) (Or.inl rfl)
      (Or.inr ⟨by decide, by decide, by decide⟩) (by decide)).2.trans (by decide),
    (getIPAddress_complete_bit "" "52:54:00:12:34:56"
      "192.168.121.111 0x1 0x0 52:54:00:12:34:56 * virbr0"
      "192.168.121.111" "0x1" "0x0" "*" "virbr0" false false [Char.ofNat 48] 0
      (by decide) (Or.inl rfl)
      (Or.inr ⟨by decide, by decide, by decide⟩) (by decide)).2.trans (by decide),
    (getIPAddress_complete_bit "" "52:54:00:12:34:56"
      "192.168.121.111 0x1 0x4 52:54:00:12:34:56 * virbr0"
      "192.168.121.111" "0x1" "0x4" "*" "virbr0" false false [Char.ofNat 52] 4
      (by decide) (Or.inl rfl)
      (Or.inr ⟨by decide, by decide, by decide⟩) (by decide)).2.trans (by decide),
    (getIPAddress_complete_bit "" "52:54:00:12:34:56"
      "192.168.121.111 0x1 1 52:54:00:12:34:56 * virbr0"
      "192.168.121.111" "0x1" "1" "*" "virbr0" false false [Char.ofNat 49] 1
      (by decide) (Or.inl rfl)
      (Or.inl ⟨by decide, by decide, by decide, by decide⟩) (by decide)).2.trans (by decide)⟩

theorem fetchProps_error (m : Monitor) (path : String) (r : List qomListReturn)
    (device : netDevice) (e : GoError) (h : (fetchProps m path r device).2 = .error e) :
    ∃ q ∈ (fetchProps m path r device).1, failure m q = some e := by
  induction r generalizing device with
  | nil => simp [fetchProps] at h
  | cons d ds ih =>
    unfold fetchProps at h ⊢
    split_ifs at h ⊢ with hskip
    · exact ih device h
    · cases hg : m.qmpQomGet path d.Name with
      | error err =>
        simp only [hg, Except.error.injEq] at h ⊢
        exact ⟨_, List.mem_singleton.mpr rfl, by simp only [failure, hg, h]⟩
      | ok value =>
        simp only [hg] at h ⊢
        obtain ⟨q, hq, hf⟩ := ih _ h
        exact ⟨q, List.mem_cons_of_mem _ hq, hf⟩

theorem scanChildren_error (m : Monitor) (parentPath : String) (ps : List qomListReturn)
    (devices : List netDevice) (e : GoError)
    (h : (scanChildren m parentPath ps devices).2 = .error e) :
    ∃ q ∈ (scanChildren m parentPath ps devices).1, failure m q = some e := by
  induction ps generalizing devices with
  | nil => simp [scanChildren] at h
  | cons p ps ih =>
    unfold scanChildren at h ⊢
    split_ifs at h ⊢ with hc
    · cases hr : m.qmpQomList (parentPath ++ "/" ++ p.Name) with
      | error err =>
        simp only [hr, Except.error.injEq] at h ⊢
        exact ⟨_, List.mem_singleton.mpr rfl, by simp only [failure, hr, h]⟩
      | ok r =>
        simp only [hr] at h ⊢
        split_ifs at h ⊢ with hn
        · cases hf : (fetchProps m (parentPath ++ "/" ++ p.Name) r
              ⟨parentPath ++ "/" ++ p.Name, "", "", ""⟩).2 with
          | error e1 =>
            simp only [hf, Except.error.injEq] at h ⊢
            obtain ⟨q, hq, hfail⟩ := fetchProps_error m _ r _ e1 hf
            exact ⟨q, List.mem_cons_of_mem _ hq, h ▸ hfail⟩
          | ok device =>
            simp only [hf] at h ⊢
            obtain ⟨q, hq, hfail⟩ := ih _ h
            exact ⟨q, List.mem_cons_of_mem _ (List.mem_append_right _ hq), hfail⟩
        · simp only [] at h ⊢
          obtain ⟨q, hq, hfail⟩ := ih _ h
          exact ⟨q, List.mem_cons_of_mem _ hq, hfail⟩
    · exact ih _ h

theorem getNetDevices_error (m : Monitor) (e : GoError) (h : (getNetDevices m).2 = some e) :
    ∃ q ∈ getNetDevicesRequests m, failure m q = some e := by
  unfold getNetDevices at h
  unfold getNetDevicesRequests
  simp only [rootPaths, scanRoots] at h ⊢
  cases h1 : m.qmpQomList "/machine/peripheral" with
  | error err =>
    simp only [h1, Option.some.injEq] at h ⊢
    exact ⟨_, List.mem_singleton.mpr rfl, by simp only [failure, h1, h]⟩
  | ok L1 =>
    simp only [h1] at h ⊢
    cases hc1 : (scanChildren m "/machine/peripheral" L1 []).2 with
    | error e1 =>
      simp only [hc1, Option.some.injEq] at h ⊢
      obtain ⟨q, hq, hfail⟩ := scanChildren_error m _ L1 [] e1 hc1
      exact ⟨q, List.mem_cons_of_mem _ hq, h ▸ hfail⟩
    | ok d1 =>
      simp only [hc1] at h ⊢
      cases h2 : m.qmpQomList "/machine/peripheral-anon" with
      | error err =>
        simp only [h2, Option.some.injEq] at h ⊢
        exact ⟨Request.list "/machine/peripheral-anon",
          List.mem_cons_of_mem _ (List.mem_append_right _ (List.mem_singleton.mpr rfl)),
          by simp only [failure, h2, h]⟩
      | ok L2 =>
        simp only [h2] at h ⊢
        cases hc2 : (scanChildren m "/machine/peripheral-anon" L2 d1).2 with
        | error e2 =>
          simp only [hc2, Option.some.injEq] at h ⊢
          obtain ⟨q, hq, hfail⟩ := scanChildren_error m _ L2 d1 e2 hc2
          exact ⟨q, List.mem_cons_of_mem _ (List.mem_append_right _
            (List.mem_cons_of_mem _ hq)), h ▸ hfail⟩
        | ok d2 => simp [hc2] at h

/-- A run all of whose requests are answered returns no error. -/
theorem getNetDevices_answered (m : Monitor)
    (hlist : ∀ path, Request.list path ∈ getNetDevicesRequests m →
      ∃ r, m.qmpQomList path = .ok r)
    (hget : ∀ path property, Request.get path property ∈ getNetDevicesRequests m →
      ∃ v, m.qmpQomGet path property = .ok v) :
    (getNetDevices m).2 = none := by
  cases h : (getNetDevices m).2 with
  | none => rfl
  | some e =>
    obtain ⟨q, hq, hfail⟩ := getNetDevices_error m e h
    cases q with
    | list path =>
      obtain ⟨r, hr⟩ := hlist path hq
      simp [failure, hr] at hfail
    | get path property =>
      obtain ⟨v, hv⟩ := hget path property hq
      simp [failure, hv] at hfail

/-- C4. On a monitor that answers every request the run sends, with `L1` and
`L2` the listings of `/machine/peripheral` and `/machine/peripheral-anon`,
`getNetDevices` returns no error and as many devices as there are entries of
`L1` and `L2` whose type begins with `child<` and whose own listing contains an
entry named `netdev`; the other entries add no device and raise no error. -/
theorem getNetDevices_one_device_per_netdev_subtree (m : Monitor)
    (L1 L2 : List qomListReturn)
    (hlist : ∀ path, Request.list path ∈ getNetDevicesRequests m →
      ∃ r, m.qmpQomList path = .ok r)
    (hget : ∀ path property, Request.get path property ∈ getNetDevicesRequests m →
      ∃ v, m.qmpQomGet path property = .ok v)
    (h1 : m.qmpQomList "/machine/peripheral" = .ok L1)
    (h2 : m.qmpQomList "/machine/peripheral-anon" = .ok L2) :
    (getNetDevices m).2 = none ∧
      (getNetDevices m).1.length =
        L1.countP (exposesNetdev m "/machine/peripheral") +
          L2.countP (exposesNetdev m "/machine/peripheral-anon") := by
  have hok := getNetDevices_answered m hlist hget
  refine ⟨hok, ?_⟩
  obtain ⟨K1, K2, new1, new2, k1, k2, hdev, hall1, hall2⟩ := getNetDevices_ok m hok
  rw [h1] at k1
  rw [h2] at k2
  cases k1
  cases k2
  rw [hdev, List.length_append, ← hall1.length_eq, ← hall2.length_eq,
    List.countP_eq_length_filter, List.countP_eq_length_filter]

/-- C7. On a monitor that answers every listing the run requests and on which
no entry of the two root listings is a `child<` subtree whose own listing names
`netdev`, `getNetDevices` returns the empty sequence and no error. -/
theorem getNetDevices_empty_without_netdev (m : Monitor)
    (hlist : ∀ path, Request.list path ∈ getNetDevicesRequests m →
      ∃ r, m.qmpQomList path = .ok r)
    (hnone : ∀ parentPath ∈ rootPaths, ∀ L, m.qmpQomList parentPath = .ok L →
      ∀ p ∈ L, exposesNetdev m parentPath p = false) :
    getNetDevices m = ([], none) := by
  have hok : (getNetDevices m).2 = none := by
    apply getNetDevices_answered m hlist
    intro path property hq
    obtain ⟨parentPath, hroot, L, hL, p, hp, hexp, _⟩ :=
      getNetDevicesRequests_mem_get m path property hq
    rw [hnone parentPath hroot L hL p hp] at hexp
    exact absurd hexp (by decide)
  obtain ⟨L1, L2, new1, new2, k1, k2, hdev, hall1, hall2⟩ := getNetDevices_ok m hok
  have hf1 : L1.filter (exposesNetdev m "/machine/peripheral") = [] := by
    rw [List.filter_eq_nil_iff]
    intro p hp
    rw [hnone _ (by simp [rootPaths]) L1 k1 p hp]
    exact Bool.false_ne_true
  have hf2 : L2.filter (exposesNetdev m "/machine/peripheral-anon") = [] := by
    rw [List.filter_eq_nil_iff]
    intro p hp
    rw [hnone _ (by simp [rootPaths]) L2 k2 p hp]
    exact Bool.false_ne_true
  rw [hf1] at hall1
  rw [hf2] at hall2
  cases hall1
  cases hall2
  exact Prod.ext hdev hok

theorem strictMonitor_requests :
    getNetDevicesRequests strictMonitor =
      [Request.list "/machine/peripheral", Request.list "/machine/peripheral/net0",
        Request.get "/machine/peripheral/net0" "type",
        Request.get "/machine/peripheral/net0" "netdev",
        Request.get "/machine/peripheral/net0" "mac",
        Request.list "/machine/peripheral-anon"] := by
  decide

/-- Witness of C4: the sample guest has three `child<` entries, two of which
expose `netdev`, and two devices are returned without error; the guest with the
single device `net0`, on a transport that rejects every request outside its
object model, gives one device. -/
theorem getNetDevices_one_device_per_netdev_subtree_witness :
    ((getNetDevices sampleMonitor).2 = none ∧ (getNetDevices sampleMonitor).1.length = 1 + 1) ∧
    ((getNetDevices strictMonitor).2 = none ∧ (getNetDevices strictMonitor).1.length = 1 + 0) := by
  have h := getNetDevices_one_device_per_netdev_subtree sampleMonitor
    [⟨"type", "string"⟩, ⟨"net0", "child<virtio-net-pci>"⟩, ⟨"disk0", "child<virtio-blk-pci>"⟩]
    [⟨"type", "string"⟩, ⟨"device[0]", "child<e1000>"⟩]
    (fun path _ => sampleMonitor_lists path)
    (fun path property _ => sampleMonitor_gets path property) rfl rfl
  have c1 : List.countP (exposesNetdev sampleMonitor "/machine/peripheral")
      [⟨"type", "string"⟩, ⟨"net0", "child<virtio-net-pci>"⟩,
        ⟨"disk0", "child<virtio-blk-pci>"⟩] = 1 := by decide
  have c2 : List.countP (exposesNetdev sampleMonitor "/machine/peripheral-anon")
      [⟨"type", "string"⟩, ⟨"device[0]", "child<e1000>"⟩] = 1 := by decide
  rw [c1, c2] at h
  have g := getNetDevices_one_device_per_netdev_subtree strictMonitor
    [⟨"net0", "child<virtio-net-pci>"⟩] []
    (by
      intro path hp
      rw [strictMonitor_requests] at hp
      simp only [List.mem_cons, Request.list.injEq, List.not_mem_nil, or_false, false_or,
        reduceCtorEq] at hp
      rcases hp with hp | hp | hp <;> subst hp <;> exact ⟨_, rfl⟩)
    (by
      intro path property hp
      rw [strictMonitor_requests] at hp
      simp only [List.mem_cons, Request.get.injEq, List.not_mem_nil, or_false, false_or,
        reduceCtorEq] at hp
      rcases hp with ⟨hp, hq⟩ | ⟨hp, hq⟩ | ⟨hp, hq⟩ <;> subst hp <;> subst hq <;>
        exact ⟨_, rfl⟩)
    rfl rfl
  have d1 : List.countP (exposesNetdev strictMonitor "/machine/peripheral")
      [⟨"net0", "child<virtio-net-pci>"⟩] = 1 := by decide
  have d2 : List.countP (exposesNetdev strictMonitor "/machine/peripheral-anon") [] = 0 := by
    decide
  rw [d1, d2] at g
  exact ⟨h, g⟩

/-- Witness of C7: the guest with a single disk yields no device and no error,
and so does the guest whose disk is named `netdev`, on a transport that rejects
unknown paths. -/
theorem getNetDevices_empty_without_netdev_witness :
    getNetDevices diskMonitor = ([], none) ∧
      getNetDevices diskNamedNetdevMonitor = ([], none) :=
  ⟨getNetDevices_empty_without_netdev diskMonitor
      (by
        intro path _
        unfold diskMonitor
        dsimp only
        split_ifs <;> exact ⟨_, rfl⟩)
      (by
        intro parentPath hroot L hL p hp
        simp only [rootPaths, List.mem_cons, List.not_mem_nil, or_false] at hroot
        rcases hroot with h | h <;> subst h <;> cases hL <;>
          simp only [List.mem_cons, List.not_mem_nil, or_false] at hp
        · rcases hp with h | h <;> subst h <;> decide
        · subst hp; decide),
    getNetDevices_empty_without_netdev diskNamedNetdevMonitor
      (by
        intro path hp
        have hreq : getNetDevicesRequests diskNamedNetdevMonitor =
            [Request.list "/machine/peripheral", Request.list "/machine/peripheral/netdev",
              Request.list "/machine/peripheral-anon"] := by decide
        rw [hreq] at hp
        simp only [List.mem_cons, Request.list.injEq, List.not_mem_nil, or_false] at hp
        rcases hp with hp | hp | hp <;> subst hp <;> exact ⟨_, rfl⟩)
      (by
        intro parentPath hroot L hL p hp
        simp only [rootPaths, List.mem_cons, List.not_mem_nil, or_false] at hroot
        rcases hroot with h | h <;> subst h <;> cases hL <;>
          simp only [List.mem_cons, List.not_mem_nil, or_false] at hp
        · subst hp; decide)⟩

/-- C6. On a transport that serves by `qom-get` only properties named in the
`qom-list` of the same path, every device `getNetDevices` returns has as `Name`
exactly the value served for the property `netdev` of its path, as `MacAddress`
exactly the value served for `mac`, and as `Type` exactly the value served for
`type`: whatever value a `qom-get` of `mac` or `type` at the path yields is the
field of the device, and when the subtree's listing names the property the get
is served with that field as its value. -/
theorem getNetDevices_properties_as_served (m : Monitor) (d : netDevice)
    (hm : ∀ path r property v, m.qmpQomList path = .ok r →
      m.qmpQomGet path property = .ok v → property ∈ names r)
    (hd : d ∈ (getNetDevices m).1) :
    m.qmpQomGet d.Path "netdev" = .ok d.Name ∧
      (∀ v, m.qmpQomGet d.Path "mac" = .ok v → d.MacAddress = v) ∧
      (∀ v, m.qmpQomGet d.Path "type" = .ok v → d.Type_ = v) ∧
      ∃ r, m.qmpQomList d.Path = .ok r ∧ "netdev" ∈ names r ∧
        ("mac" ∈ names r → m.qmpQomGet d.Path "mac" = .ok d.MacAddress) ∧
        ("type" ∈ names r → m.qmpQomGet d.Path "type" = .ok d.Type_) := by
  obtain ⟨r, hr, hn, hname, hmac, _, htype, _⟩ := getNetDevices_properties_listed m d hd
  refine ⟨hname, ?_, ?_, r, hr, hn, hmac, htype⟩
  · intro v hv
    have := hmac (hm _ r _ v hr hv)
    rw [hv] at this
    exact (Except.ok.inj this).symm
  · intro v hv
    have := htype (hm _ r _ v hr hv)
    rw [hv] at this
    exact (Except.ok.inj this).symm

theorem strictMonitor_serves_listed (path : String) (r : List qomListReturn)
    (property v : String) (hr : strictMonitor.qmpQomList path = .ok r)
    (hv : strictMonitor.qmpQomGet path property = .ok v) : property ∈ names r := by
  unfold strictMonitor at hr hv
  dsimp only at hr hv
  split_ifs at hv with h1 h2 h3
  · obtain ⟨hp, hq⟩ := h1
    subst hp; subst hq
    cases hr
    decide
  · obtain ⟨hp, hq⟩ := h2
    subst hp; subst hq
    cases hr
    decide
  · obtain ⟨hp, hq⟩ := h3
    subst hp; subst hq
    cases hr
    decide

/-- Witness of C6: the device `net0` of the guest on the strict transport has
the served values of `netdev`, `mac` and `type` as its fields. -/
theorem getNetDevices_properties_as_served_witness :
    strictMonitor.qmpQomGet "/machine/peripheral/net0" "netdev" = .ok "net0" ∧
      (∀ v, strictMonitor.qmpQomGet "/machine/peripheral/net0" "mac" = .ok v →
        "52:54:00:12:34:56" = v) ∧
      (∀ v, strictMonitor.qmpQomGet "/machine/peripheral/net0" "type" = .ok v →
        "virtio-net-pci" = v) ∧
      ∃ r, strictMonitor.qmpQomList "/machine/peripheral/net0" = .ok r ∧ "netdev" ∈ names r ∧
        ("mac" ∈ names r →
          strictMonitor.qmpQomGet "/machine/peripheral/net0" "mac" = .ok "52:54:00:12:34:56") ∧
        ("type" ∈ names r →
          strictMonitor.qmpQomGet "/machine/peripheral/net0" "type" = .ok "virtio-net-pci") :=
  getNetDevices_properties_as_served strictMonitor
    ⟨"/machine/peripheral/net0", "net0", "virtio-net-pci", "52:54:00:12:34:56"⟩
    strictMonitor_serves_listed (by decide)

/-- C9. With the empty device filter entries match whatever their device column
holds: a complete entry for the MAC, after lines that do not qualify, is
returned for any device field `dev1`, and two tables whose lines agree, line by
line, on the fields before the device field give the same result. With a
non-empty filter a line whose device field differs from it is excluded whatever
its other fields are: the result is the one of the table without that line, and
after any number of such lines a complete entry for the MAC on the filtered
device is the one returned. -/
theorem getIPAddress_device_filter (ls1 ls2 : List String) (hdr : String)
    (pre : List String) (l : String) (post : List String) (device mac dev : String)
    (pre1 post1 pre2 post2 : List String) (l1 l2 ip1 t1 fl1 mask1 dev1 ip2 t2 fl2 mask2 : String)
    (n1 n2 : Int)
    (hsame : List.Forall₂
      (fun a b => (Fields a).take DeviceIndex = (Fields b).take DeviceIndex) ls1 ls2)
    (hpre1 : ∀ x ∈ pre1, (Fields x).length = 6 ∧
      ((Fields x)[HWAddressIndex]? = some mac →
        ∃ fl n, (Fields x)[FlagsIndex]? = some fl ∧ ParseInt fl 0 32 = .ok n) ∧
      ¬ Qualifies "" mac x)
    (hl1 : Fields l1 = [ip1, t1, fl1, mac, mask1, dev1])
    (hfl1 : ParseInt fl1 0 32 = .ok n1) (hbit1 : andInt n1 AtfCom = AtfCom)
    (hne : device ≠ "") (hl : (Fields l)[DeviceIndex]? = some dev) (hdev : dev ≠ device)
    (hpre2 : ∀ x ∈ pre2, ∃ d, (Fields x)[DeviceIndex]? = some d ∧ d ≠ device)
    (hl2 : Fields l2 = [ip2, t2, fl2, mac, mask2, device])
    (hfl2 : ParseInt fl2 0 32 = .ok n2) (hbit2 : andInt n2 AtfCom = AtfCom) :
    getIPAddress (.ok (hdr :: (pre1 ++ l1 :: post1))) "" mac = .ret ip1 none ∧
    getIPAddress (.ok ls1) "" mac = getIPAddress (.ok ls2) "" mac ∧
    getIPAddress (.ok (hdr :: (pre ++ l :: post))) device mac =
      getIPAddress (.ok (hdr :: (pre ++ post))) device mac ∧
    getIPAddress (.ok (hdr :: (pre2 ++ l2 :: post2))) device mac = .ret ip2 none := by
  refine ⟨?_, ?_, ?_, ?_⟩
  · simp only [getIPAddress, List.drop_succ_cons, List.drop_zero]
    refine scanLoop_stop "" mac pre1 l1 post1 _
      (fun x hx => loopBody_not_qualifying (hpre1 x hx).1 (hpre1 x hx).2.1 (hpre1 x hx).2.2) ?_
    rw [loopBody_six hl1]
    simp [hfl1, hbit1]
  · simp only [getIPAddress]
    apply scanLoop_congr_take
    cases hsame with
    | nil => exact List.Forall₂.nil
    | cons _ htl => simpa using htl
  · simp only [getIPAddress, List.drop_succ_cons, List.drop_zero]
    exact scanLoop_remove_skipped device mac pre l post (loopBody_filtered hne hl hdev)
  · simp only [getIPAddress, List.drop_succ_cons, List.drop_zero]
    refine scanLoop_stop device mac pre2 l2 post2 _ ?_ ?_
    · intro x hx
      obtain ⟨d, hd, hdne⟩ := hpre2 x hx
      exact loopBody_filtered hne hd hdne
    · rw [loopBody_six hl2]
      simp [hfl2, hbit2]

/-- Witness of C9: under the empty filter the entry is returned whether it sits
on `virbr0` or on `eth0`; under the filter `eth0` the `virbr0` entry, complete
and carrying the MAC, is passed over and the later `eth0` entry is returned. -/
theorem getIPAddress_device_filter_witness :
    getIPAddress (.ok ["IP address HW type Flags HW address Mask Device",
        "192.168.121.111 0x1 0x2 52:54:00:12:34:56 * virbr0"]) "" "52:54:00:12:34:56" =
      .ret "192.168.121.111" none ∧
    getIPAddress (.ok ["IP address HW type Flags HW address Mask Device",
        "192.168.121.111 0x1 0x2 52:54:00:12:34:56 * virbr0"]) "" "52:54:00:12:34:56" =
      getIPAddress (.ok ["IP address HW type Flags HW address Mask Device",
        "192.168.121.111 0x1 0x2 52:54:00:12:34:56 * eth0"]) "" "52:54:00:12:34:56" ∧
    getIPAddress (.ok ["IP address HW type Flags HW address Mask Device",
        "192.168.121.111 0x1 0x2 52:54:00:12:34:56 * virbr0",
        "10.0.0.5 0x1 0x2 52:54:00:12:34:56 * eth0"]) "eth0" "52:54:00:12:34:56" =
      getIPAddress (.ok ["IP address HW type Flags HW address Mask Device",
        "10.0.0.5 0x1 0x2 52:54:00:12:34:56 * eth0"]) "eth0" "52:54:00:12:34:56" ∧
    getIPAddress (.ok ["IP address HW type Flags HW address Mask Device",
        "192.168.121.111 0x1 0x2 52:54:00:12:34:56 * virbr0",
        "10.0.0.5 0x1 0x2 52:54:00:12:34:56 * eth0"]) "eth0" "52:54:00:12:34:56" =
      .ret "10.0.0.5" none :=
  getIPAddress_device_filter
    ["IP address HW type Flags HW address Mask Device",
      "192.168.121.111 0x1 0x2 52:54:00:12:34:56 * virbr0"]
    ["IP address HW type Flags HW address Mask Device",
      "192.168.121.111 0x1 0x2 52:54:00:12:34:56 * eth0"]
    "IP address HW type Flags HW address Mask Device" []
    "192.168.121.111 0x1 0x2 52:54:00:12:34:56 * virbr0"
    ["10.0.0.5 0x1 0x2 52:54:00:12:34:56 * eth0"] "eth0" "52:54:00:12:34:56" "virbr0"
    [] [] ["192.168.121.111 0x1 0x2 52:54:00:12:34:56 * virbr0"] []
    "192.168.121.111 0x1 0x2 52:54:00:12:34:56 * virbr0"
    "10.0.0.5 0x1 0x2 52:54:00:12:34:56 * eth0"
    "192.168.121.111" "0x1" "0x2" "*" "virbr0" "10.0.0.5" "0x1" "0x2" "*" 2 2
    (List.Forall₂.cons rfl (List.Forall₂.cons (by decide) List.Forall₂.nil))
    (fun _ hx => absurd hx (List.not_mem_nil _)) (by decide) (by rfl) (by decide)
    (by decide) (by decide) (by decide)
    (by
      intro x hx
      rw [List.mem_singleton] at hx
      subst hx
      exact ⟨"virbr0", by decide, by decide⟩)
    (by decide) (by rfl) (by decide)

end QmpListNetworkDevices
